import Mathlib

/-! Song: playback controller (src/Song.cpp).

A shallow embedding of the playback controller of `src/Song.cpp`.

Conventions of the embedding.

* The globals of `Song.cpp` (`num_songs`, `current_song`, `fn`, `current_state`,
  `last_state`, `repeat`, `mp3Volume`, `currPosition`, `bytesPlayed`, `seeked`,
  `sd_file`, `tag`) are the fields of one record `Song`; every operation takes the
  record and returns the new one.
* Machine integers are `Nat`/`Int` with the wrap written out: `uint32_t` values are
  reduced `% 2^32`, an EEPROM cell holds `v % 256`, `int` is the 16-bit `int` of the
  AVR target named in the header comment of `Song.cpp`.
* Operations whose C++ behaviour is undefined at some inputs (a division or remainder
  by zero, a store past the end of `fn`) return `Except Fault _` and raise the fault
  there.
* The collaborators that are not part of this repository (SD library, EEPROM, decoder,
  JSON handler, ID3 reader) are modelled at their interface, as section 6 of the
  specification describes them.
* `Serial.print` diagnostics are not modelled.
-/

namespace SongPlayer

/-! ## Constants (`Song.cpp` lines 23-60) -/

/-- Size of the microsd read buffer (`#define read_buffer 256`). -/
def read_buffer : Nat := 256
/-- Default decoder volume (`#define mp3_vol 175`). -/
def mp3_vol : Nat := 175
/-- Upper end of the decoder volume range (`#define MAX_VOL 254`). -/
def MAX_VOL : Nat := 254

def EEPROM_INIT_ID : Nat := 33
def EEPROM_FIRSTRUN : Nat := 0
def EEPROM_VOLUME : Nat := 1
def EEPROM_TRACK : Nat := 2
def EEPROM_STATE : Nat := 3
def EEPROM_POSITION : Nat := 4

def FILE_NAMES_START : Nat := 32
def max_name_len : Nat := 13
def max_num_songs : Nat := 30

/-- The enumerators of `enum state { DIR_PLAY, MP3_PLAY, IDLE }` are the integer
constants 0, 1, 2; a variable of the enumeration is an integer, which is how
`(state)EEPROM.read(EEPROM_STATE)` can fill it from a stored byte. -/
abbrev state := Nat
def DIR_PLAY : state := 0
def MP3_PLAY : state := 1
def IDLE : state := 2

/-- Modelled from the spec: `DIR_NAME_FREE` of the SD library header (not under src/),
the first name byte of a free slot, after which no allocated entry follows
("skip deleted/free/dot-entries"). -/
def DIR_NAME_FREE : Nat := 0x00
/-- Modelled from the spec: `DIR_NAME_DELETED` of the SD library header (not under
src/), the first name byte of a deleted entry. -/
def DIR_NAME_DELETED : Nat := 0xE5
/-- Modelled from the spec: `DIR_ATT_FILE_TYPE_MASK` of the SD library header (not under
src/): the volume-label and directory attribute bits; an entry with neither is a file
("skip ... non-file entries"). -/
def DIR_ATT_FILE_TYPE_MASK : Nat := 0x18

/-- Undefined behaviour the C++ code can run into. -/
inductive Fault where
  | division_by_zero
  | out_of_bounds
  deriving DecidableEq, Repr

/-! ## Collaborators -/

/-- A directory entry as the scan sees it: `dir_t::name` (11 bytes, 8.3 padded) and
`dir_t::attributes`. -/
structure dir_t where
  name : List Nat
  attributes : Nat
  deriving DecidableEq, Repr

/-- Byte `i` of `p.name`. -/
def dir_t.at (p : dir_t) (i : Nat) : Nat := p.name.getD i 0

/-- Modelled from the spec: `DIR_IS_FILE` of the SD library header (not under src/). -/
def DIR_IS_FILE (p : dir_t) : Bool := p.attributes &&& DIR_ATT_FILE_TYPE_MASK == 0

/-- Strings produced by the metadata extractor (`Id3Tag`). -/
structure TAGData where
  title : String
  artist : String
  album : String
  deriving DecidableEq, Repr

/-- Modelled from the spec: the storage medium behind the SD library (section 6,
"Storage driver"): `enumerateEntries()` yields `root` in on-media order,
`open(name)` succeeds exactly when `files name` is a size, and the metadata extractor
reads `id3 name` from an open file. -/
structure SdVolume where
  root : List dir_t
  files : List Nat → Option Nat
  id3 : List Nat → TAGData

/-- Modelled from the spec: the storage handle `sd_file` (section 6: `size()`,
`seek(offset)`, `read(buf, n)`, `close()`). `name` is the file name it was opened
with. -/
structure SdFile where
  isOpen : Bool
  name : List Nat
  fileSize_ : Nat
  curPosition_ : Nat
  deriving DecidableEq, Repr

/-- Modelled from the spec: a handle that is closed or whose open failed is an
empty, zero-length track (sections 4.3 and 7). -/
def SdFile.closed : SdFile :=
  { isOpen := false, name := [], fileSize_ := 0, curPosition_ := 0 }

/-- Modelled from the spec: `handle.close()`. -/
def SdFile.close (_f : SdFile) : SdFile := SdFile.closed

/-- Modelled from the spec: `open(name) → handle`, on a closed handle. A failed open
leaves the handle closed. -/
def SdFile.open (v : SdVolume) (name : List Nat) : SdFile :=
  match v.files name with
  | some sz => { isOpen := true, name := name, fileSize_ := sz, curPosition_ := 0 }
  | none => SdFile.closed

/-- Modelled from the spec: `handle.size()`. -/
def SdFile.fileSize (f : SdFile) : Nat := f.fileSize_

/-- Modelled from the spec: `handle.seek(offset)`; refused on a closed handle and
past the end of the file. Returns the success flag. -/
def SdFile.seekSet (f : SdFile) (pos : Nat) : Bool × SdFile :=
  if f.isOpen && decide (pos ≤ f.fileSize_) then (true, { f with curPosition_ := pos })
  else (false, f)

/-- Modelled from the spec: `handle.read(buf, n) → bytes_read`: the bytes left in the
file, at most `n`; a closed handle reads zero bytes ("subsequent reads return zero
bytes"). -/
def SdFile.read (f : SdFile) (n : Nat) : Nat × SdFile :=
  if f.isOpen then
    (min n (f.fileSize_ - f.curPosition_),
      { f with curPosition_ := f.curPosition_ + min n (f.fileSize_ - f.curPosition_) })
  else (0, f)

/-- A value handed to the JSON handler. -/
inductive Val where
  | str (s : String)
  | num (n : Int)
  deriving DecidableEq, Repr

/-- One call on the JSON handler (`handler->...`), in call order. -/
inductive Out where
  | kv (key : String) (v : Val) (first : Bool)
  | respond
  | respondFalse
  | respondString (s : String)
  deriving DecidableEq, Repr

/-- `EEPROM.write(address, value)`: a cell holds one byte. -/
def EEPROM_write (e : Nat → Nat) (a v : Nat) : Nat → Nat :=
  fun x => if x = a then v % 256 else e x

/-- `EEPROM.read(address)`. -/
def EEPROM_read (e : Nat → Nat) (a : Nat) : Nat := e a

/-- Conversion of an unsigned value to the 16-bit `int` of the target. -/
def toInt16 (x : Nat) : Int :=
  if x % 65536 < 32768 then ((x % 65536 : Nat) : Int) else ((x % 65536 : Nat) : Int) - 65536

/-! ## The controller state -/

/-- The globals of `Song.cpp`, the medium, the byte store and the record of the calls
made on the decoder and on the JSON handler. -/
structure Song where
  card : SdVolume
  sd_file : SdFile
  num_songs : Nat
  current_song : Nat
  fn : Nat → Nat
  tag : TAGData
  current_state : state
  last_state : state
  repeat_ : Bool
  mp3Volume : Int
  currPosition : Int
  bytesPlayed : Nat
  seeked : Bool
  eeprom : Nat → Nat
  out : List Out
  Mp3_played : List Nat
  Mp3_volume : Int

/-- `handler->...` appends to the record of calls. -/
def Song.emit (s : Song) (o : List Out) : Song := { s with out := s.out ++ o }

/-- `Song::isPlaying` (lines 251-253). -/
def isPlaying (s : Song) : Bool :=
  s.current_state == MP3_PLAY || s.current_state == DIR_PLAY

/-- `Song::getFileSize` (lines 214-216). -/
def getFileSize (s : Song) : Nat := s.sd_file.fileSize

/-- `Song::sendSongInfo(bool first)` (lines 108-117). -/
def sendSongInfo (first : Bool) (s : Song) : Song :=
  s.emit
    [ Out.kv "title" (Val.str s.tag.title) first,
      Out.kv "artist" (Val.str s.tag.artist) false,
      Out.kv "album" (Val.str s.tag.album) false,
      Out.kv "songNumber" (Val.num s.current_song) false,
      Out.kv "position" (Val.num s.currPosition) false,
      Out.kv "state" (Val.str (if isPlaying s then "PLAYING" else "PAUSED")) false ]

/-- Modelled from the spec: `tag.scan(&sd_file)` of the metadata extractor (`Id3Tag`,
only declared under src/): best-effort strings of the open file, empty strings when
nothing is open. -/
def tag_scan (v : SdVolume) (f : SdFile) : TAGData :=
  if f.isOpen then v.id3 f.name else { title := "", artist := "", album := "" }

/-! ## Catalog names -/

/-- The `for` loop of `map_current_song_to_fn` (lines 514-524): `k` iterations are
left, `i` is the loop index, `base` the EEPROM address of the entry. Returns the
buffer and `null_index`. -/
def map_loop (e : Nat → Nat) (base : Nat) : Nat → Nat → (Nat → Nat) → (Nat → Nat) × Nat
  | 0, _, fn => (fn, max_name_len - 1)
  | k + 1, i, fn =>
    let fn1 := Function.update fn i (EEPROM_read e (base + i))
    if fn1 i = 0 then (fn1, i) else map_loop e base k (i + 1) fn1

/-- The dot restoration of `map_current_song_to_fn` (lines 528-534) on the 13-byte
buffer `fn`; the store to `fn[null_index + 1]` must stay inside the buffer. -/
def restore_dot (fn : Nat → Nat) (null_index : Nat) : Except Fault (Nat → Nat) :=
  if null_index > 3 then
    if null_index + 1 < max_name_len then
      let fn1 := Function.update fn (null_index + 1) 0
      let fn2 := Function.update fn1 null_index (fn1 (null_index - 1))
      let fn3 := Function.update fn2 (null_index - 1) (fn2 (null_index - 2))
      let fn4 := Function.update fn3 (null_index - 2) (fn3 (null_index - 3))
      let fn5 := Function.update fn4 (null_index - 3) 0x2E
      Except.ok fn5
    else Except.error Fault.out_of_bounds
  else Except.ok fn

/-- `Song::map_current_song_to_fn` (lines 509-535). -/
def map_current_song_to_fn (s : Song) : Except Fault Song :=
  let r := map_loop s.eeprom (FILE_NAMES_START + s.current_song * max_name_len)
    max_name_len 0 s.fn
  match restore_dot r.1 r.2 with
  | Except.ok fn => Except.ok { s with fn := fn }
  | Except.error e => Except.error e

/-- The NUL-terminated string held in the 13-byte buffer `fn`. -/
def cstr (fn : Nat → Nat) : List Nat :=
  ((List.range max_name_len).map fn).takeWhile (fun c => c != 0)

/-- The inner `for` loop of the scan (lines 461-466) over the name bytes still to
visit: every byte that is not a space is written at `base + pos`. Returns the store
and `pos`. -/
def write_chars (base : Nat) : List Nat → (Nat → Nat) → Nat → (Nat → Nat) × Nat
  | [], e, pos => (e, pos)
  | c :: cs, e, pos =>
    if c ≠ 0x20 then write_chars base cs (EEPROM_write e (base + pos) c) (pos + 1)
    else write_chars base cs e pos

/-- The 11 name bytes `p.name[0..10]` the scan visits. -/
def name_bytes (p : dir_t) : List Nat := (List.range 11).map p.at

/-- Lines 459-470 of the scan: store the name of `p` as catalog entry `n`, without the
spaces, and terminate it with NUL. -/
def store_name (e : Nat → Nat) (n : Nat) (p : dir_t) : Nat → Nat :=
  let r := write_chars (FILE_NAMES_START + n * max_name_len) (name_bytes p) e 0
  EEPROM_write r.1 (FILE_NAMES_START + n * max_name_len + r.2) 0

/-! ## Track session -/

/-- `Song::sd_file_open` (lines 119-136). -/
def sd_file_open (s : Song) : Except Fault Song :=
  let s1 := { s with sd_file := s.sd_file.close, currPosition := 0, bytesPlayed := 0 }
  match map_current_song_to_fn s1 with
  | Except.error e => Except.error e
  | Except.ok s2 =>
    let s3 := { s2 with sd_file := SdFile.open s2.card (cstr s2.fn) }
    let s4 := { s3 with tag := tag_scan s3.card s3.sd_file }
    Except.ok (sendSongInfo false s4)

/-- `Song::setSong` (lines 138-142); the `int` argument is stored in an
`unsigned char`. -/
def setSong (songNumber : Int) (s : Song) : Except Fault Song :=
  match sd_file_open { s with current_song := (songNumber % 256).toNat } with
  | Except.error e => Except.error e
  | Except.ok s1 =>
    Except.ok { s1 with eeprom := EEPROM_write s1.eeprom EEPROM_TRACK s1.current_song }

/-- `Song::nextFileExists` (lines 144-149); the comparison is made on `int`. -/
def nextFileExists (s : Song) : Bool :=
  decide ((s.current_song : Int) < (s.num_songs : Int) - 1) || s.repeat_

/-- `Song::nextFile` (lines 151-164). -/
def nextFile (s : Song) : Except Fault (Bool × Song) :=
  if !nextFileExists s then Except.ok (false, s)
  else if s.num_songs = 0 then Except.error Fault.division_by_zero
  else
    match sd_file_open
      { s with current_song := ((s.current_song + 1) % s.num_songs) % 256 } with
    | Except.error e => Except.error e
    | Except.ok s1 =>
      Except.ok
        (true, { s1 with eeprom := EEPROM_write s1.eeprom EEPROM_TRACK s1.current_song })

/-- `Song::prevFileExists` (lines 166-171). -/
def prevFileExists (s : Song) : Bool := decide (s.current_song > 0)

/-- `Song::prevFile` (lines 173-183). -/
def prevFile (s : Song) : Except Fault (Bool × Song) :=
  if !prevFileExists s then Except.ok (false, s)
  else
    match sd_file_open { s with current_song := s.current_song - 1 } with
    | Except.error e => Except.error e
    | Except.ok s1 =>
      Except.ok
        (true, { s1 with eeprom := EEPROM_write s1.eeprom EEPROM_TRACK s1.current_song })

/-! ## Feed loop and state machine -/

/-- `Song::mp3_play` (lines 186-212). -/
def mp3_play (s : Song) : Except Fault Song :=
  let r := s.sd_file.read read_buffer
  let bytes_to_read := r.1
  let s1 := { s with
    sd_file := r.2,
    Mp3_played := s.Mp3_played ++ [bytes_to_read],
    bytesPlayed := (s.bytesPlayed + bytes_to_read) % 2 ^ 32 }
  if getFileSize s1 = 0 then Except.error Fault.division_by_zero
  else
    let pos := toInt16 (((s1.bytesPlayed * 100) % 2 ^ 32) / getFileSize s1)
    let s2 :=
      if pos > s1.currPosition then
        ({ s1 with currPosition := pos }).emit
          [ Out.kv "command" (Val.str "SEEK") true,
            Out.kv "position" (Val.num pos) false,
            Out.respond ]
      else s1
    if bytes_to_read < read_buffer then
      Except.ok { s2 with sd_file := s2.sd_file.close, current_state := IDLE }
    else Except.ok s2

/-- `Song::seek` (lines 218-227). Returns the value returned and the new state. -/
def seek (percent : Int) (s : Song) : Int × Song :=
  if percent < 0 ∨ percent > 100 then (0, s)
  else
    let seekPos := ((percent % 2 ^ 32).toNat * (getFileSize s / 100)) % 2 ^ 32
    let r := s.sd_file.seekSet seekPos
    (percent,
      { s with
        sd_file := r.2,
        seeked := r.1,
        currPosition := percent,
        bytesPlayed := seekPos,
        eeprom := EEPROM_write s.eeprom EEPROM_POSITION (percent % 256).toNat })

/-- `Song::dir_play` (lines 232-249). -/
def dir_play (s : Song) : Except Fault Song :=
  if s.current_song < s.num_songs then
    match mp3_play s with
    | Except.error e => Except.error e
    | Except.ok s1 =>
      if s1.current_state == IDLE && nextFileExists s1 then
        let s2 := ({ s1 with current_state := DIR_PLAY }).emit
          [ Out.kv "message" (Val.str "Next Song") true ]
        match nextFile s2 with
        | Except.error e => Except.error e
        | Except.ok r => Except.ok (r.2.emit [ Out.respond ])
      else Except.ok s1
  else Except.ok s

/-- `Song::pause` (lines 348-354). -/
def pause (s : Song) : Song :=
  if s.current_state ≠ IDLE then
    { s with
      last_state := s.current_state,
      current_state := IDLE,
      eeprom := EEPROM_write s.eeprom EEPROM_STATE IDLE }
  else s

/-- `Song::play` (lines 356-362). -/
def play (s : Song) : Song :=
  if s.current_state = IDLE then
    let st := if s.last_state ≠ IDLE then s.last_state else DIR_PLAY
    { s with current_state := st, eeprom := EEPROM_write s.eeprom EEPROM_STATE st }
  else s

/-- `Song::loop` (lines 373-390): the `switch` on `current_state`. -/
def loop (s : Song) : Except Fault Song :=
  if s.current_state = DIR_PLAY then dir_play s
  else if s.current_state = MP3_PLAY then mp3_play s
  else Except.ok s

/-! ## Catalog builder -/

/-- The extension test of the scan (lines 450-451). -/
def is_audio (p : dir_t) : Bool :=
  (p.at 8 == 0x4D && p.at 9 == 0x50 && p.at 10 == 0x33) ||
  (p.at 8 == 0x57 && p.at 9 == 0x41 && p.at 10 == 0x56)

/-- Lines 452-481: the body of the scan for an accepted entry `p`. -/
def scan_accept (p : dir_t) (s : Song) : Except Fault Song :=
  let s1 := if s.num_songs ≠ 0 then s.emit [ Out.respondString "," ] else s
  let s2 := { s1 with eeprom := store_name s1.eeprom s1.num_songs p }
  let s3 := { s2 with current_song := s2.num_songs }
  match map_current_song_to_fn s3 with
  | Except.error e => Except.error e
  | Except.ok s4 =>
    let s4c := { s4 with sd_file := s4.sd_file.close }
    let s5 := { s4c with sd_file := SdFile.open s4c.card (cstr s4c.fn) }
    let s6 := { s5 with tag := tag_scan s5.card s5.sd_file }
    let s7 := (sendSongInfo true s6).emit [ Out.respondFalse ]
    Except.ok { s7 with num_songs := s7.num_songs + 1 }

/-- The `while` loop of `sd_dir_setup` (lines 429-483) over the entries `readDir`
still has to deliver. -/
def scan_loop : List dir_t → Song → Except Fault Song
  | [], s => Except.ok s
  | p :: rest, s =>
    if ¬ (s.num_songs < max_num_songs) then Except.ok s
    else if p.at 0 = DIR_NAME_FREE then Except.ok s
    else if p.at 0 = DIR_NAME_DELETED ∨ p.at 0 = 0x2E ∨ DIR_IS_FILE p = false then
      scan_loop rest s
    else if is_audio p then
      match scan_accept p s with
      | Except.error e => Except.error e
      | Except.ok s1 => scan_loop rest s1
    else scan_loop rest s

/-- `Song::sd_dir_setup` (lines 421-488). -/
def sd_dir_setup (s : Song) : Except Fault Song :=
  let oldCurrentSong := s.current_song
  let s1 := ({ s with num_songs := 0 }).emit
    [ Out.respondString "\x7b\"command\": \"LIBRARY\",\"songs\":[" ]
  match scan_loop s1.card.root s1 with
  | Except.error e => Except.error e
  | Except.ok s2 =>
    Except.ok { (s2.emit [ Out.respondString "]\x7d!" ]) with current_song := oldCurrentSong }

/-! ## Well-formedness predicates and sample data -/

/-- The value is one of the three enumerators of `enum state`. -/
def is_state (x : state) : Prop := x = DIR_PLAY ∨ x = MP3_PLAY ∨ x = IDLE

instance (x : state) : Decidable (is_state x) := by
  unfold is_state; infer_instance

/-- Catalog entry `i` of the byte store holds a NUL within its first 12 bytes, as
every name stored by the scan does (at most 11 characters, then NUL). -/
def entry_terminated (e : Nat → Nat) (i : Nat) : Prop :=
  ∃ k, k ≤ 11 ∧ e (FILE_NAMES_START + i * max_name_len + k) = 0

instance (e : Nat → Nat) (i : Nat) : Decidable (entry_terminated e i) :=
  decidable_of_iff (∃ k, k < 12 ∧ e (FILE_NAMES_START + i * max_name_len + k) = 0)
    ⟨fun ⟨k, hk, h⟩ => ⟨k, by omega, h⟩, fun ⟨k, hk, h⟩ => ⟨k, by omega, h⟩⟩

/-- A medium with two audio files, `A.MP3` (1000 bytes) and `B.WAV` (500 bytes), and a
text file between them. -/
def sample_card : SdVolume :=
  { root :=
      [ { name := [0x41, 0x20, 0x20, 0x20, 0x20, 0x20, 0x20, 0x20, 0x4D, 0x50, 0x33],
          attributes := 0x20 },
        { name := [0x4E, 0x4F, 0x54, 0x45, 0x53, 0x20, 0x20, 0x20, 0x54, 0x58, 0x54],
          attributes := 0x20 },
        { name := [0x42, 0x20, 0x20, 0x20, 0x20, 0x20, 0x20, 0x20, 0x57, 0x41, 0x56],
          attributes := 0x20 } ],
    files := fun n =>
      if n = [0x41, 0x2E, 0x4D, 0x50, 0x33] then some 1000
      else if n = [0x42, 0x2E, 0x57, 0x41, 0x56] then some 500
      else none,
    id3 := fun _ => { title := "", artist := "", album := "" } }

/-- The globals as `Song.cpp` initialises them (lines 70-96), over `sample_card` and
an erased byte store. -/
def sample_boot : Song :=
  { card := sample_card,
    sd_file := SdFile.closed,
    num_songs := 0,
    current_song := 0,
    fn := fun _ => 0,
    tag := { title := "", artist := "", album := "" },
    current_state := DIR_PLAY,
    last_state := DIR_PLAY,
    repeat_ := true,
    mp3Volume := 175,
    currPosition := -1,
    bytesPlayed := 0,
    seeked := false,
    eeprom := fun _ => 255,
    out := [],
    Mp3_played := [],
    Mp3_volume := 0 }

/-- The byte store after the scan of `sample_card`: `AMP3` and `BWAV`, each followed
by NUL, in entries 0 and 1. -/
def sample_eeprom : Nat → Nat :=
  store_name (store_name (fun _ => 255) 0 (sample_card.root.getD 0 ⟨[], 0⟩)) 1
    (sample_card.root.getD 2 ⟨[], 0⟩)

/-- A state with the two-track catalog of `sample_card` and `A.MP3` open at its
start. -/
def sample_song : Song :=
  { sample_boot with
    sd_file := SdFile.open sample_card [0x41, 0x2E, 0x4D, 0x50, 0x33],
    num_songs := 2,
    currPosition := 0,
    eeprom := sample_eeprom }

/-- What `sd_file_open` leaves behind: the session was replaced by the result of
opening the name now in `fn`, position and byte count are zero, and nothing else of
the controller moved. -/
def open_post (s s1 : Song) : Prop :=
  s1.current_song = s.current_song ∧ s1.num_songs = s.num_songs ∧ s1.eeprom = s.eeprom ∧
  s1.currPosition = 0 ∧ s1.bytesPlayed = 0 ∧ s1.current_state = s.current_state ∧
  s1.last_state = s.last_state ∧ s1.repeat_ = s.repeat_ ∧ s1.card = s.card ∧
  s1.sd_file = SdFile.open s.card (cstr s1.fn) ∧ s1.Mp3_played = s.Mp3_played

/-- The test of line 462: the byte is not a space. -/
def not_space (c : Nat) : Bool := decide (c ≠ 0x20)

/-- The characters the scan stores for entry `p`: its 11 name bytes without the
spaces. -/
def stored_name (p : dir_t) : List Nat := (name_bytes p).filter not_space

/-- The first `n` bytes of catalog entry `i` in the byte store. -/
def entry_bytes (e : Nat → Nat) (i n : Nat) : List Nat :=
  (List.range n).map (fun j => e (FILE_NAMES_START + i * max_name_len + j))

/-- An eligible entry in the words of the specification: a regular file that is neither
deleted nor a dot entry and whose bytes 8..10 are `MP3` or `WAV`. -/
def eligible (p : dir_t) : Bool :=
  DIR_IS_FILE p && decide (p.at 0 ≠ DIR_NAME_DELETED) && decide (p.at 0 ≠ 0x2E) &&
  (decide ([p.at 8, p.at 9, p.at 10] = [0x4D, 0x50, 0x33]) ||
   decide ([p.at 8, p.at 9, p.at 10] = [0x57, 0x41, 0x56]))

/-- Catalog entry `i` of the store `e` holds the name of `p`: its characters, as
bytes, then NUL. -/
def holds_name (e : Nat → Nat) (i : Nat) (p : dir_t) : Prop :=
  (∀ j, j < (stored_name p).length →
    e (FILE_NAMES_START + i * max_name_len + j) = (stored_name p).getD j 0 % 256) ∧
  e (FILE_NAMES_START + i * max_name_len + (stored_name p).length) = 0

/-- `n` consecutive calls of `loop()`. -/
def ticks : Nat → Song → Except Fault Song
  | 0, s => Except.ok s
  | n + 1, s =>
    match loop s with
    | Except.error e => Except.error e
    | Except.ok s1 => ticks n s1

/-- The state `s` put at the start of a 1000-byte track: DIR_PLAY, a catalog of one
track, track 0 freshly opened, repeat mode `r`. -/
def fresh_1000 (r : Bool) (s : Song) : Song :=
  { s with
    current_state := DIR_PLAY,
    num_songs := 1,
    current_song := 0,
    repeat_ := r,
    sd_file := { isOpen := true, name := s.sd_file.name, fileSize_ := 1000, curPosition_ := 0 },
    bytesPlayed := 0,
    currPosition := 0 }

/-- The handler calls of one position notification (lines 201-203). -/
def seek_frame (pos : Int) : List Out :=
  [ Out.kv "command" (Val.str "SEEK") true, Out.kv "position" (Val.num pos) false, Out.respond ]

/-- A medium with the single audio file `A.MP3` of 1000 bytes. -/
def solo_card : SdVolume :=
  { root :=
      [ { name := [0x41, 0x20, 0x20, 0x20, 0x20, 0x20, 0x20, 0x20, 0x4D, 0x50, 0x33],
          attributes := 0x20 } ],
    files := fun n => if n = [0x41, 0x2E, 0x4D, 0x50, 0x33] then some 1000 else none,
    id3 := fun _ => { title := "", artist := "", album := "" } }

/-- The one-track catalog of `solo_card` with `A.MP3` freshly opened, in DIR_PLAY, with
`repeat` as `Song.cpp` initialises it (line 87: `bool repeat = true`). -/
def solo_song : Song :=
  { sample_boot with
    card := solo_card,
    sd_file := SdFile.open solo_card [0x41, 0x2E, 0x4D, 0x50, 0x33],
    num_songs := 1,
    currPosition := 0,
    eeprom := store_name (fun _ => 255) 0 (solo_card.root.getD 0 ⟨[], 0⟩) }

/-- The state `s` inside the 1000-byte track of `fresh_1000`: `cursor` bytes read and
played, position `pos`, and the decoder chunks `played` and handler calls `o` made
since the track was opened. -/
def at_1000 (r : Bool) (s : Song) (cursor : Nat) (pos : Int) (played : List Nat)
    (o : List Out) : Song :=
  { s with
    current_state := DIR_PLAY,
    num_songs := 1,
    current_song := 0,
    repeat_ := r,
    sd_file :=
      { isOpen := true, name := s.sd_file.name, fileSize_ := 1000, curPosition_ := cursor },
    bytesPlayed := cursor,
    currPosition := pos,
    Mp3_played := s.Mp3_played ++ played,
    out := s.out ++ o }

/-- The transitions of the controller (section 4.4 of the specification): a completed
`loop()`, `pause()`, `play()`, and a completed `setSong`, `nextFile` or `prevFile`. -/
inductive Transition : Song → Song → Prop where
  | tick (s s1 : Song) : loop s = Except.ok s1 → Transition s s1
  | pause (s : Song) : Transition s (pause s)
  | play (s : Song) : Transition s (play s)
  | setSong (i : Int) (s s1 : Song) : setSong i s = Except.ok s1 → Transition s s1
  | nextFile (s s1 : Song) (b : Bool) : nextFile s = Except.ok (b, s1) → Transition s s1
  | prevFile (s s1 : Song) (b : Bool) : prevFile s = Except.ok (b, s1) → Transition s s1

/-- The file name the catalog entry at `current_song` resolves to: the C string
`map_current_song_to_fn` leaves in `fn`. -/
def resolved_name (s : Song) : Option (List Nat) :=
  match map_current_song_to_fn s with
  | Except.ok s1 => some (cstr s1.fn)
  | Except.error _ => none

/-- The session/track correspondence of section 3 of the specification: a file held
open by the session is the one named by the catalog entry at `current_song`. -/
def session_matches (s : Song) : Prop :=
  s.sd_file.isOpen = true → resolved_name s = some s.sd_file.name

instance (s : Song) : Decidable (session_matches s) := by
  unfold session_matches; infer_instance

/-- The state `sd_dir_setup` leaves when run from `sample_boot`. -/
def sample_scanned : Song :=
  match sd_dir_setup sample_boot with
  | Except.ok s => s
  | Except.error _ => sample_boot

/-- The state `setSong(0)` leaves when run from `sample_scanned`. -/
def sample_reopened : Song :=
  match setSong 0 sample_scanned with
  | Except.ok s => s
  | Except.error _ => sample_scanned

/-! ## Persisted state and volume -/

/-- `Song::initPlayerStateFromEEPROM` (lines 278-304). -/
def initPlayerStateFromEEPROM (s : Song) : Song :=
  if EEPROM_read s.eeprom EEPROM_FIRSTRUN = EEPROM_INIT_ID then
    { s with
      mp3Volume := (EEPROM_read s.eeprom EEPROM_VOLUME : Nat),
      current_song := EEPROM_read s.eeprom EEPROM_TRACK,
      current_state := EEPROM_read s.eeprom EEPROM_STATE }
  else
    let e1 := EEPROM_write s.eeprom EEPROM_FIRSTRUN EEPROM_INIT_ID
    let e2 := EEPROM_write e1 EEPROM_VOLUME mp3_vol
    let e3 := EEPROM_write e2 EEPROM_TRACK 0
    let e4 := EEPROM_write e3 EEPROM_STATE DIR_PLAY
    let e5 := EEPROM_write e4 EEPROM_POSITION 0
    { s with
      mp3Volume := (mp3_vol : Nat),
      current_song := 0,
      current_state := DIR_PLAY,
      currPosition := 0,
      eeprom := e5 }

/-- `Song::setVolume` (lines 255-262). The floating-point expression
`pow(2.7182818, volume_percentage / 100.0) * 93.8`, converted to `int` by the
assignment to `mp3Volume`, is the parameter `level`. Returns the value returned and
the new state. -/
def setVolume (level : Int → Int) (volume_percentage : Int) (s : Song) : Int × Song :=
  let vol2 := level volume_percentage
  (vol2,
    { s with
      mp3Volume := vol2,
      Mp3_volume := vol2,
      eeprom := EEPROM_write s.eeprom EEPROM_VOLUME (volume_percentage % 256).toNat })

/-- `Song::getVolume` (lines 264-268). The floating-point expression
`log(mp3Volume / 93.8) * 100`, converted to `int` by the return, is the parameter
`percent_of`. -/
def getVolume (percent_of : Int → Int) (s : Song) : Int := percent_of s.mp3Volume

/-- `Song::setup` (lines 306-346), with the medium and the decoder present
(`sd_card_setup` and `Mp3.begin` succeed). -/
def setup (level : Int → Int) (s : Song) : Except Fault Song :=
  let s1 := initPlayerStateFromEEPROM s
  let s2 := (setVolume level s1.mp3Volume s1).2
  match sd_dir_setup s2 with
  | Except.error e => Except.error e
  | Except.ok s3 =>
    let s4 := { s3 with currPosition := (EEPROM_read s3.eeprom EEPROM_POSITION : Nat) }
    Except.ok (seek s4.currPosition s4).2

/-- `n` consecutive calls of the feed `mp3_play()`. -/
def feeds : Nat → Song → Except Fault Song
  | 0, s => Except.ok s
  | n + 1, s =>
    match mp3_play s with
    | Except.error e => Except.error e
    | Except.ok s1 => feeds n s1

/-- A state in DIR_PLAY on the sample catalog whose open track `A.MP3` is an empty
file (size 0). -/
def empty_track_song : Song :=
  { sample_song with
    sd_file :=
      { isOpen := true, name := [0x41, 0x2E, 0x4D, 0x50, 0x33], fileSize_ := 0,
        curPosition_ := 0 } }

/-- The sample state with a 43,000,000-byte `A.MP3` freshly opened. -/
def big_song : Song :=
  { sample_song with
    sd_file :=
      { isOpen := true, name := [0x41, 0x2E, 0x4D, 0x50, 0x33], fileSize_ := 43000000,
        curPosition_ := 0 } }

/-- Inside the 43,000,000-byte track after `seek(99)`: the handle is open at cursor
`c`, `c` bytes count as played and the position is 99. -/
def in_big_track (s : Song) (c : Nat) : Prop :=
  s.sd_file.isOpen = true ∧ s.sd_file.fileSize_ = 43000000 ∧ s.sd_file.curPosition_ = c ∧
  s.bytesPlayed = c ∧ s.currPosition = 99

/-- The state reached from `sample_song` by `seek(50)`. -/
def sample_seeked : Song := (seek 50 sample_song).2

/-- The state `nextFile()` leaves when run from `sample_seeked`. -/
def sample_advanced : Song :=
  match nextFile sample_seeked with
  | Except.ok r => r.2
  | Except.error _ => sample_seeked

/-- The integer `n` is the real `x` truncated toward zero, the conversion of a
`double` to `int`. -/
def truncates (x : ℝ) (n : Int) : Prop :=
  (0 ≤ x → (n : ℝ) ≤ x ∧ x < (n : ℝ) + 1) ∧ (x < 0 → x ≤ (n : ℝ) ∧ (n : ℝ) - 1 < x)

/-- Over real arithmetic, `level p` is the decoder level `setVolume(p)` stores:
`2.7182818 ^ (p / 100) * 93.8` truncated (lines 256-258). -/
def level_at (level : Int → Int) (p : Int) : Prop :=
  truncates ((2.7182818 : ℝ) ^ ((p : ℝ) / 100) * 93.8) (level p)

/-- Over real arithmetic, `percent_of l` is what `getVolume()` returns for the stored
level `l`: `ln(l / 93.8) * 100` truncated (lines 265-267). -/
def percent_at (percent_of : Int → Int) (l : Int) : Prop :=
  truncates (Real.log ((l : ℝ) / 93.8) * 100) (percent_of l)

/-- The state `setup()` leaves on a first boot of the sample medium (the boot state
with its erased store); 539 stands for the decoder level `setVolume` computes. -/
def sample_first_boot : Song :=
  match setup (fun _ => 539) sample_boot with
  | Except.ok s => s
  | Except.error _ => sample_boot

/-- The state after `seek(50)` and then `nextFile()` on `sample_first_boot`. -/
def sample_track_changed : Song :=
  match nextFile (seek 50 sample_first_boot).2 with
  | Except.ok r => r.2
  | Except.error _ => sample_first_boot

/-- The state `setup()` leaves after a power cycle of `sample_track_changed`: the
globals are initialised again and the byte store is kept. -/
def sample_rebooted : Song :=
  match setup (fun _ => 539) { sample_boot with eeprom := sample_track_changed.eeprom } with
  | Except.ok s => s
  | Except.error _ => sample_boot

/-! # Theorems -/

/-! ## Lemmas on the name loop -/

/-- The read loop stops at the first NUL `L` of the entry and copies the bytes up to
and including it. -/
theorem map_loop_spec (e : Nat → Nat) (base L : Nat) (hL : e (base + L) = 0)
    (hpre : ∀ j, j < L → e (base + j) ≠ 0) :
    ∀ (n i : Nat) (fn : Nat → Nat), i ≤ L → L < i + n →
      (map_loop e base n i fn).2 = L ∧
      ∀ j, (map_loop e base n i fn).1 j =
        if i ≤ j ∧ j ≤ L then e (base + j) else fn j := by
  intro n
  induction n with
  | zero => intro i fn h1 h2; omega
  | succ k ih =>
    intro i fn h1 h2
    simp only [map_loop, EEPROM_read, Function.update_same]
    by_cases hz : e (base + i) = 0
    · have hiL : i = L := by
        by_contra hne
        exact hpre i (by omega) hz
      subst hiL
      simp only [hz, if_true]
      refine ⟨trivial, fun j => ?_⟩
      by_cases hj : j = i
      · subst hj; simp [hz]
      · have : ¬ (i ≤ j ∧ j ≤ i) := by omega
        simp [Function.update_noteq hj, this]
    · simp only [hz, if_false]
      have hiL : i ≠ L := fun h => hz (h ▸ hL)
      obtain ⟨h2a, h2b⟩ := ih (i + 1) (Function.update fn i (e (base + i))) (by omega) (by omega)
      refine ⟨h2a, fun j => ?_⟩
      rw [h2b j]
      by_cases hj : j = i
      · subst hj
        have : ¬ (j + 1 ≤ j ∧ j ≤ L) := by omega
        have h3 : j ≤ j ∧ j ≤ L := ⟨le_refl _, h1⟩
        simp [this, h3]
      · by_cases hc : i + 1 ≤ j ∧ j ≤ L
        · have : i ≤ j ∧ j ≤ L := ⟨by omega, hc.2⟩
          simp [hc, this]
        · have : ¬ (i ≤ j ∧ j ≤ L) := by omega
          simp [hc, this, Function.update_noteq hj]

/-- A terminated entry has a first NUL, among its first 12 bytes. -/
theorem first_nul (e : Nat → Nat) (i : Nat) (h : entry_terminated e i) :
    ∃ L, L ≤ 11 ∧ e (FILE_NAMES_START + i * max_name_len + L) = 0 ∧
      ∀ j, j < L → e (FILE_NAMES_START + i * max_name_len + j) ≠ 0 := by
  classical
  have hex : ∃ k, e (FILE_NAMES_START + i * max_name_len + k) = 0 := by
    obtain ⟨k, _, hk⟩ := h
    exact ⟨k, hk⟩
  refine ⟨Nat.find hex, ?_, Nat.find_spec hex, fun j hj => Nat.find_min hex hj⟩
  obtain ⟨k, hk1, hk2⟩ := h
  exact le_trans (Nat.find_min' hex hk2) hk1

/-- On a terminated entry the dot restoration stays inside `fn`. -/
theorem map_current_song_to_fn_ok (s : Song) (h : entry_terminated s.eeprom s.current_song) :
    ∃ fn, map_current_song_to_fn s = Except.ok { s with fn := fn } := by
  obtain ⟨L, hL1, hL2, hL3⟩ := first_nul s.eeprom s.current_song h
  have hs := (map_loop_spec s.eeprom _ L hL2 hL3 max_name_len 0 s.fn (Nat.zero_le _)
    (by simp only [max_name_len]; omega)).1
  unfold map_current_song_to_fn restore_dot
  simp only [hs]
  by_cases h3 : L > 3
  · have : L + 1 < max_name_len := by simp only [max_name_len]; omega
    simp only [h3, this, if_true]
    exact ⟨_, rfl⟩
  · simp only [h3, if_false]
    exact ⟨_, rfl⟩

/-- Whatever it returns, `map_current_song_to_fn` changes the buffer `fn` only. -/
theorem map_current_song_to_fn_frame (s s1 : Song) (h : map_current_song_to_fn s = Except.ok s1) :
    ∃ fn, s1 = { s with fn := fn } := by
  unfold map_current_song_to_fn at h
  simp only at h
  split at h
  · injection h with h; exact ⟨_, h.symm⟩
  · cases h

/-- Every completed `sd_file_open` satisfies `open_post`. -/
theorem sd_file_open_post (s s1 : Song) (h : sd_file_open s = Except.ok s1) :
    open_post s s1 := by
  unfold sd_file_open at h
  simp only at h
  split at h
  · cases h
  · rename_i s2 hs2
    obtain ⟨fn, hfn⟩ := map_current_song_to_fn_frame _ _ hs2
    injection h with h
    subst h
    subst hfn
    simp [open_post, sendSongInfo, Song.emit]

/-- On a terminated catalog entry `sd_file_open` completes. -/
theorem sd_file_open_ok (s : Song) (h : entry_terminated s.eeprom s.current_song) :
    ∃ s1, sd_file_open s = Except.ok s1 := by
  obtain ⟨fn, hfn⟩ := map_current_song_to_fn_ok
    { s with sd_file := s.sd_file.close, currPosition := 0, bytesPlayed := 0 } h
  unfold sd_file_open
  simp only [hfn]
  exact ⟨_, rfl⟩

/-! ## Claims -/

/-- C1: for every percent in [0,100] and every track whose size is a 32-bit value,
`seek(percent)` returns percent and afterwards `currPosition` is percent,
`bytesPlayed` is `percent * (fileSize() / 100)` with truncating division, and the
persisted position byte is percent. -/
theorem seek_valid (s : Song) (percent : Int) (h0 : 0 ≤ percent) (h100 : percent ≤ 100)
    (hsize : s.sd_file.fileSize_ < 2 ^ 32) :
    (seek percent s).1 = percent ∧
    (seek percent s).2.currPosition = percent ∧
    ((seek percent s).2.bytesPlayed : Int) = percent * ((getFileSize s / 100 : Nat) : Int) ∧
    (((seek percent s).2.eeprom EEPROM_POSITION : Nat) : Int) = percent := by
  have hg : ¬ (percent < 0 ∨ percent > 100) := by omega
  obtain ⟨p, rfl⟩ := Int.eq_ofNat_of_zero_le h0
  have hp : p ≤ 100 := by omega
  have hq : s.sd_file.fileSize_ / 100 * 100 ≤ s.sd_file.fileSize_ := Nat.div_mul_le_self _ _
  have hprod : p * (s.sd_file.fileSize_ / 100) < 2 ^ 32 := by
    calc p * (s.sd_file.fileSize_ / 100) ≤ 100 * (s.sd_file.fileSize_ / 100) :=
          Nat.mul_le_mul_right _ hp
      _ = s.sd_file.fileSize_ / 100 * 100 := Nat.mul_comm _ _
      _ ≤ s.sd_file.fileSize_ := hq
      _ < 2 ^ 32 := hsize
  have e1 : ((p : Int) % 2 ^ 32).toNat = p := by omega
  have e2 : ((p : Int) % 256).toNat = p := by omega
  simp only [seek, hg, if_false, getFileSize, SdFile.fileSize, EEPROM_write, e1, e2,
    Nat.mod_eq_of_lt hprod, if_true, true_and]
  refine ⟨by push_cast; rfl, ?_⟩
  have : p % 256 = p := by omega
  rw [this]

/-- Witness of C1 on the sample track: `seek(50)` on the 1000-byte file. -/
theorem seek_valid_witness :
    (0 : Int) ≤ 50 ∧ (50 : Int) ≤ 100 ∧ sample_song.sd_file.fileSize_ < 2 ^ 32 ∧
    ((seek 50 sample_song).1 = 50 ∧
     (seek 50 sample_song).2.currPosition = 50 ∧
     ((seek 50 sample_song).2.bytesPlayed : Int) =
       50 * ((getFileSize sample_song / 100 : Nat) : Int) ∧
     (((seek 50 sample_song).2.eeprom EEPROM_POSITION : Nat) : Int) = 50) :=
  ⟨by decide, by decide, by decide, seek_valid sample_song 50 (by decide) (by decide) (by decide)⟩

/-- C2: for every percent below 0 or above 100, `seek(percent)` returns 0 and the whole
state (position, byte count, read cursor, byte store) is what it was. -/
theorem seek_invalid (s : Song) (percent : Int) (h : percent < 0 ∨ percent > 100) :
    seek percent s = (0, s) := by
  simp [seek, h]

/-- Witness of C2: `seek(101)` on the sample track. -/
theorem seek_invalid_witness :
    ((101 : Int) < 0 ∨ (101 : Int) > 100) ∧ seek 101 sample_song = (0, sample_song) :=
  ⟨by decide, seek_invalid sample_song 101 (by decide)⟩

/-- C3 as stated fails: a controller paused out of MP3_PLAY is IDLE and remembers
MP3_PLAY; `pause()` then `play()` from there gives MP3_PLAY, not DIR_PLAY. -/
theorem pause_play_from_idle_counterexample :
    (pause { sample_song with current_state := MP3_PLAY }).current_state = IDLE ∧
    (pause { sample_song with current_state := MP3_PLAY }).last_state = MP3_PLAY ∧
    (play (pause (pause { sample_song with current_state := MP3_PLAY }))).current_state
      = MP3_PLAY ∧
    (play (pause (pause { sample_song with current_state := MP3_PLAY }))).current_state
      ≠ DIR_PLAY := by
  decide

/-- C3 amended: for every state whose `current_state` and `last_state` are
enumerators, `pause()` then `play()` gives back the state that was active when it was
not IDLE; from IDLE it gives the remembered `last_state` when that is not IDLE and
DIR_PLAY otherwise; the persisted state byte is the resulting `current_state`. -/
theorem pause_play_spec (s : Song) (hc : is_state s.current_state)
    (hl : is_state s.last_state) :
    (s.current_state ≠ IDLE → (play (pause s)).current_state = s.current_state) ∧
    (s.current_state = IDLE → s.last_state ≠ IDLE →
      (play (pause s)).current_state = s.last_state) ∧
    (s.current_state = IDLE → s.last_state = IDLE →
      (play (pause s)).current_state = DIR_PLAY) ∧
    (play (pause s)).eeprom EEPROM_STATE = (play (pause s)).current_state := by
  rcases hc with hc | hc | hc <;> rcases hl with hl | hl | hl <;>
    simp [pause, play, hc, hl, EEPROM_write, DIR_PLAY, MP3_PLAY, IDLE]

/-- Witness of the amended C3 on the sample state (DIR_PLAY, remembering DIR_PLAY). -/
theorem pause_play_spec_witness :
    is_state sample_song.current_state ∧ is_state sample_song.last_state ∧
    ((sample_song.current_state ≠ IDLE →
        (play (pause sample_song)).current_state = sample_song.current_state) ∧
     (sample_song.current_state = IDLE → sample_song.last_state ≠ IDLE →
        (play (pause sample_song)).current_state = sample_song.last_state) ∧
     (sample_song.current_state = IDLE → sample_song.last_state = IDLE →
        (play (pause sample_song)).current_state = DIR_PLAY) ∧
     (play (pause sample_song)).eeprom EEPROM_STATE =
        (play (pause sample_song)).current_state) :=
  ⟨by decide, by decide, pause_play_spec sample_song (by decide) (by decide)⟩

/-- `nextFile` when a next track exists and the catalog is not empty. -/
theorem nextFile_eq (s s1 : Song) (he : nextFileExists s = true) (hn : s.num_songs ≠ 0)
    (hs : sd_file_open { s with current_song := (s.current_song + 1) % s.num_songs % 256 }
      = Except.ok s1) :
    nextFile s = Except.ok
      (true, { s1 with eeprom := EEPROM_write s1.eeprom EEPROM_TRACK s1.current_song }) := by
  simp [nextFile, he, hn, hs]

/-- C4: in a catalog of `num_songs >= 1` tracks (a byte count, each entry a terminated
name) at the last track: with repeat off `nextFile()` returns false and the state is
untouched; with repeat on it returns true with track and persisted track byte 0. Below
the last track it returns true with track and persisted track byte one higher. -/
theorem nextFile_spec (s : Song) (hn : 1 ≤ s.num_songs) (hb : s.num_songs < 256)
    (hcat : ∀ i, i < s.num_songs → entry_terminated s.eeprom i) :
    (s.current_song = s.num_songs - 1 → s.repeat_ = false →
      nextFile s = Except.ok (false, s)) ∧
    (s.current_song = s.num_songs - 1 → s.repeat_ = true →
      ∃ s1, nextFile s = Except.ok (true, s1) ∧ s1.current_song = 0 ∧
        s1.eeprom EEPROM_TRACK = 0) ∧
    (s.current_song < s.num_songs - 1 →
      ∃ s1, nextFile s = Except.ok (true, s1) ∧ s1.current_song = s.current_song + 1 ∧
        s1.eeprom EEPROM_TRACK = s.current_song + 1) := by
  have hn0 : s.num_songs ≠ 0 := by omega
  refine ⟨fun hc hr => ?_, fun hc hr => ?_, fun hc => ?_⟩
  · have : ¬ ((s.current_song : Int) < (s.num_songs : Int) - 1) := by omega
    simp [nextFile, nextFileExists, hr, this]
  · have hidx : (s.current_song + 1) % s.num_songs % 256 = 0 := by
      have : s.current_song + 1 = s.num_songs := by omega
      rw [this, Nat.mod_self]
    obtain ⟨s1, hs1⟩ := sd_file_open_ok
      { s with current_song := (s.current_song + 1) % s.num_songs % 256 }
      (by simp only [hidx]; exact hcat 0 (by omega))
    obtain ⟨p1, _, p3, _⟩ := sd_file_open_post _ _ hs1
    simp only [hidx] at p1
    refine ⟨{ s1 with eeprom := EEPROM_write s1.eeprom EEPROM_TRACK s1.current_song }, ?_,
      p1, ?_⟩
    · exact nextFile_eq s s1 (by simp [nextFileExists, hr]) hn0 hs1
    · simp [EEPROM_write, p1]
  · have hidx : (s.current_song + 1) % s.num_songs % 256 = s.current_song + 1 := by
      have h1 : s.current_song + 1 < s.num_songs := by omega
      rw [Nat.mod_eq_of_lt h1]
      exact Nat.mod_eq_of_lt (by omega)
    obtain ⟨s1, hs1⟩ := sd_file_open_ok
      { s with current_song := (s.current_song + 1) % s.num_songs % 256 }
      (by simp only [hidx]; exact hcat _ (by omega))
    obtain ⟨p1, _, p3, _⟩ := sd_file_open_post _ _ hs1
    simp only [hidx] at p1
    have hlt : (s.current_song : Int) < (s.num_songs : Int) - 1 := by omega
    refine ⟨{ s1 with eeprom := EEPROM_write s1.eeprom EEPROM_TRACK s1.current_song }, ?_,
      p1, ?_⟩
    · exact nextFile_eq s s1 (by simp [nextFileExists, hlt]) hn0 hs1
    · simp only [EEPROM_write, p1, if_true]
      omega

/-- Witness of C4 on the two-track sample catalog. -/
theorem nextFile_spec_witness :
    1 ≤ sample_song.num_songs ∧ sample_song.num_songs < 256 ∧
    (∀ i, i < sample_song.num_songs → entry_terminated sample_song.eeprom i) ∧
    ((sample_song.current_song = sample_song.num_songs - 1 → sample_song.repeat_ = false →
        nextFile sample_song = Except.ok (false, sample_song)) ∧
     (sample_song.current_song = sample_song.num_songs - 1 → sample_song.repeat_ = true →
        ∃ s1, nextFile sample_song = Except.ok (true, s1) ∧ s1.current_song = 0 ∧
          s1.eeprom EEPROM_TRACK = 0) ∧
     (sample_song.current_song < sample_song.num_songs - 1 →
        ∃ s1, nextFile sample_song = Except.ok (true, s1) ∧
          s1.current_song = sample_song.current_song + 1 ∧
          s1.eeprom EEPROM_TRACK = sample_song.current_song + 1)) :=
  ⟨by decide, by decide, by decide,
    nextFile_spec sample_song (by decide) (by decide) (by decide)⟩

/-- C5: at track 0 `prevFile()` returns false and the state is untouched; at a track
above 0 (a byte, the entry below it a terminated name) it returns true, track and
persisted track byte are one lower, and byte count and position are 0. -/
theorem prevFile_spec (s : Song) (hb : s.current_song < 256)
    (hcat : entry_terminated s.eeprom (s.current_song - 1)) :
    (s.current_song = 0 → prevFile s = Except.ok (false, s)) ∧
    (s.current_song > 0 →
      ∃ s1, prevFile s = Except.ok (true, s1) ∧ s1.current_song = s.current_song - 1 ∧
        s1.eeprom EEPROM_TRACK = s.current_song - 1 ∧ s1.bytesPlayed = 0 ∧
        s1.currPosition = 0) := by
  refine ⟨fun hc => ?_, fun hc => ?_⟩
  · simp [prevFile, prevFileExists, hc]
  · obtain ⟨s1, hs1⟩ := sd_file_open_ok { s with current_song := s.current_song - 1 } hcat
    obtain ⟨p1, _, _, p4, p5, _⟩ := sd_file_open_post _ _ hs1
    simp only at p1
    refine ⟨{ s1 with eeprom := EEPROM_write s1.eeprom EEPROM_TRACK s1.current_song }, ?_,
      p1, ?_, p5, p4⟩
    · simp [prevFile, prevFileExists, hc, hs1]
    · simp only [EEPROM_write, p1, if_true]
      omega

/-- Witness of C5 at track 1 of the sample catalog. -/
theorem prevFile_spec_witness :
    ({ sample_song with current_song := 1 } : Song).current_song < 256 ∧
    entry_terminated ({ sample_song with current_song := 1 } : Song).eeprom
      (({ sample_song with current_song := 1 } : Song).current_song - 1) ∧
    ((({ sample_song with current_song := 1 } : Song).current_song = 0 →
        prevFile { sample_song with current_song := 1 } =
          Except.ok (false, { sample_song with current_song := 1 })) ∧
     (({ sample_song with current_song := 1 } : Song).current_song > 0 →
        ∃ s1, prevFile { sample_song with current_song := 1 } = Except.ok (true, s1) ∧
          s1.current_song = ({ sample_song with current_song := 1 } : Song).current_song - 1 ∧
          s1.eeprom EEPROM_TRACK =
            ({ sample_song with current_song := 1 } : Song).current_song - 1 ∧
          s1.bytesPlayed = 0 ∧ s1.currPosition = 0)) :=
  ⟨by decide, by decide,
    prevFile_spec { sample_song with current_song := 1 } (by decide) (by decide)⟩

/-! ## Lemmas on the catalog scan -/

/-- The character loop writes the characters that are not spaces at consecutive
addresses from `base + pos` and nothing else. -/
theorem write_chars_spec (base : Nat) : ∀ (cs : List Nat) (e : Nat → Nat) (pos : Nat),
    (write_chars base cs e pos).2 = pos + (cs.filter not_space).length ∧
    (∀ a, a < base + pos ∨
        base + pos + (cs.filter not_space).length ≤ a →
      (write_chars base cs e pos).1 a = e a) ∧
    (∀ j, j < (cs.filter not_space).length →
      (write_chars base cs e pos).1 (base + pos + j) =
        (cs.filter not_space).getD j 0 % 256) := by
  intro cs
  induction cs with
  | nil => intro e pos; simp [write_chars]
  | cons c cs ih =>
    intro e pos
    by_cases hc : c = 0x20
    · subst hc
      have hf : (32 :: cs).filter not_space = cs.filter not_space := by
        simp [List.filter, not_space]
      rw [hf]
      simpa [write_chars] using ih e pos
    · obtain ⟨h1, h2, h3⟩ := ih (EEPROM_write e (base + pos) c) (pos + 1)
      have hf : (c :: cs).filter not_space = c :: cs.filter not_space := by
        simp [List.filter, not_space, hc]
      rw [hf]
      simp only [write_chars, hc, ne_eq, not_false_eq_true, if_true, List.length_cons]
      refine ⟨by rw [h1]; omega, fun a ha => ?_, fun j hj => ?_⟩
      · rw [h2 a (by omega)]
        have : a ≠ base + pos := by omega
        simp [EEPROM_write, this]
      · cases j with
        | zero =>
          rw [h2 (base + pos + 0) (by omega)]
          simp [EEPROM_write]
        | succ j =>
          have := h3 j (by omega)
          have e1 : base + pos + (j + 1) = base + (pos + 1) + j := by omega
          rw [e1, this]
          simp

/-- At most 11 characters are stored for an entry. -/
theorem stored_name_length (p : dir_t) : (stored_name p).length ≤ 11 := by
  unfold stored_name
  refine le_trans (List.length_filter_le _ _) ?_
  simp [name_bytes]

/-- After `store_name`, entry `n` holds the name of `p` and every byte outside the
entry is what it was. -/
theorem store_name_spec (e : Nat → Nat) (n : Nat) (p : dir_t) :
    holds_name (store_name e n p) n p ∧
    ∀ a, a < FILE_NAMES_START + n * max_name_len ∨
        FILE_NAMES_START + n * max_name_len + (stored_name p).length < a →
      store_name e n p a = e a := by
  obtain ⟨h1, h2, h3⟩ :=
    write_chars_spec (FILE_NAMES_START + n * max_name_len) (name_bytes p) e 0
  simp only [Nat.add_zero, Nat.zero_add] at h1 h2 h3
  refine ⟨⟨fun j hj => ?_, ?_⟩, fun a ha => ?_⟩
  · have hne : FILE_NAMES_START + n * max_name_len + j ≠
        FILE_NAMES_START + n * max_name_len +
          (write_chars (FILE_NAMES_START + n * max_name_len) (name_bytes p) e 0).2 := by
      rw [h1]; unfold stored_name at hj; omega
    simp only [store_name, EEPROM_write, hne, if_false]
    exact h3 j hj
  · simp only [store_name, EEPROM_write, h1, stored_name, if_true]
  · have hne : a ≠ FILE_NAMES_START + n * max_name_len +
          (write_chars (FILE_NAMES_START + n * max_name_len) (name_bytes p) e 0).2 := by
      rw [h1]; unfold stored_name at ha; omega
    simp only [store_name, EEPROM_write, hne, if_false]
    exact h2 a (by unfold stored_name at ha; omega)

/-- An entry that holds a name is terminated. -/
theorem holds_name_terminated (e : Nat → Nat) (i : Nat) (p : dir_t)
    (h : holds_name e i p) : entry_terminated e i :=
  ⟨(stored_name p).length, stored_name_length p, h.2⟩

/-- The body of the scan completes: it stores the name as entry `num_songs`, leaves the
file of that entry in the session and counts the entry. -/
theorem scan_accept_spec (p : dir_t) (s : Song) :
    ∃ s1, scan_accept p s = Except.ok s1 ∧ s1.num_songs = s.num_songs + 1 ∧
      s1.eeprom = store_name s.eeprom s.num_songs p ∧ s1.card = s.card ∧
      s1.current_song = s.num_songs ∧ s1.sd_file = SdFile.open s.card (cstr s1.fn) := by
  have hterm : entry_terminated (store_name s.eeprom s.num_songs p) s.num_songs :=
    holds_name_terminated _ _ p (store_name_spec s.eeprom s.num_songs p).1
  by_cases h0 : s.num_songs = 0
  · obtain ⟨fn, hfn⟩ := map_current_song_to_fn_ok
      { s with eeprom := store_name s.eeprom s.num_songs p, current_song := s.num_songs } hterm
    simp only [scan_accept, h0, ne_eq, not_true_eq_false, if_false] at hfn ⊢
    simp only [hfn]
    exact ⟨_, rfl, by simp [sendSongInfo, Song.emit], by simp [sendSongInfo, Song.emit],
      by simp [sendSongInfo, Song.emit], by simp [sendSongInfo, Song.emit],
      by simp [sendSongInfo, Song.emit, SdFile.close]⟩
  · obtain ⟨fn, hfn⟩ := map_current_song_to_fn_ok
      { (s.emit [ Out.respondString "," ]) with
        eeprom := store_name s.eeprom s.num_songs p, current_song := s.num_songs } hterm
    simp only [scan_accept, h0, ne_eq, not_false_eq_true, if_true]
    simp only [Song.emit] at hfn ⊢
    simp only [hfn]
    exact ⟨_, rfl, by simp [sendSongInfo, Song.emit], by simp [sendSongInfo, Song.emit],
      by simp [sendSongInfo, Song.emit], by simp [sendSongInfo, Song.emit],
      by simp [sendSongInfo, Song.emit, SdFile.close]⟩

/-- The extension test of the code is the one of `eligible`. -/
theorem is_audio_iff (p : dir_t) :
    is_audio p = (decide ([p.at 8, p.at 9, p.at 10] = [0x4D, 0x50, 0x33]) ||
      decide ([p.at 8, p.at 9, p.at 10] = [0x57, 0x41, 0x56])) := by
  simp only [is_audio, List.cons.injEq, and_true, Bool.decide_and, beq_iff_eq,
    Bool.and_assoc]
  rfl

/-- Loop invariant of the scan over a listing without free slots, entered with
`num_songs <= 30`: it ends with `min (num_songs + N) 30` entries, `N` the eligible
entries of the listing, keeps every byte below the entry it starts at, and each entry
it adds holds the name of the corresponding eligible entry, in order. -/
theorem scan_loop_spec : ∀ (l : List dir_t) (s : Song),
    (∀ p, p ∈ l → p.at 0 ≠ DIR_NAME_FREE) → s.num_songs ≤ max_num_songs →
    ∃ s1, scan_loop l s = Except.ok s1 ∧
      s1.num_songs = min (s.num_songs + (l.filter eligible).length) max_num_songs ∧
      s1.card = s.card ∧
      (∀ a, a < FILE_NAMES_START + s.num_songs * max_name_len → s1.eeprom a = s.eeprom a) ∧
      (∀ j, s.num_songs + j < s1.num_songs →
        ∃ p, (l.filter eligible)[j]? = some p ∧ holds_name s1.eeprom (s.num_songs + j) p) := by
  intro l
  induction l with
  | nil =>
    intro s _ hn
    refine ⟨s, rfl, by simp; omega, rfl, fun _ _ => rfl, fun j hj => by omega⟩
  | cons p rest ih =>
    intro s hfree hn
    have hrest : ∀ q, q ∈ rest → q.at 0 ≠ DIR_NAME_FREE :=
      fun q hq => hfree q (List.mem_cons_of_mem _ hq)
    have hp : p.at 0 ≠ DIR_NAME_FREE := hfree p (List.mem_cons_self _ _)
    by_cases hfull : s.num_songs < max_num_songs
    · by_cases hskip : p.at 0 = DIR_NAME_DELETED ∨ p.at 0 = 0x2E ∨ DIR_IS_FILE p = false
      · have hel : eligible p = false := by
          unfold eligible
          rcases hskip with h | h | h <;> simp [h]
        obtain ⟨s1, h1, h2, h3, h4, h5⟩ := ih s hrest hn
        refine ⟨s1, ?_, ?_, h3, h4, ?_⟩
        · simp only [scan_loop, hfull, not_true_eq_false, if_false, hp, hskip, if_true]
          exact h1
        · simp only [List.filter, hel]; exact h2
        · simp only [List.filter, hel]; exact h5
      · by_cases haud : is_audio p = true
        · have hel : eligible p = true := by
            unfold eligible
            rw [← is_audio_iff, haud]
            simp only [not_or] at hskip
            obtain ⟨a1, a2, a3⟩ := hskip
            simp [a1, a2, a3]
          obtain ⟨s0, g1, g2, g3, g4, g5, _⟩ := scan_accept_spec p s
          obtain ⟨s1, h1, h2, h3, h4, h5⟩ := ih s0 hrest (by rw [g2]; exact hfull)
          have hst := store_name_spec s.eeprom s.num_songs p
          have hlen := stored_name_length p
          refine ⟨s1, ?_, ?_, h3.trans g4, fun a ha => ?_, fun j hj => ?_⟩
          · simp only [scan_loop, hfull, not_true_eq_false, if_false, hp, hskip, haud,
              if_true, g1]
            exact h1
          · simp only [List.filter, hel, List.length_cons]
            rw [h2, g2]
            congr 1
            omega
          · rw [h4 a (by rw [g2]; simp only [max_name_len] at ha ⊢; omega), g3]
            exact hst.2 a (Or.inl ha)
          · simp only [List.filter, hel]
            cases j with
            | zero =>
              refine ⟨p, by simp, ?_⟩
              have hfr : ∀ k, k ≤ (stored_name p).length →
                  s1.eeprom (FILE_NAMES_START + s.num_songs * max_name_len + k) =
                    store_name s.eeprom s.num_songs p
                      (FILE_NAMES_START + s.num_songs * max_name_len + k) := by
                intro k hk
                rw [h4 _ (by rw [g2]; simp only [max_name_len]; omega), g3]
              refine ⟨fun k hk => ?_, ?_⟩
              · rw [Nat.add_zero, hfr k (by omega)]
                exact hst.1.1 k hk
              · rw [Nat.add_zero, hfr _ (le_refl _)]
                exact hst.1.2
            | succ j =>
              obtain ⟨q, hq1, hq2⟩ := h5 j (by rw [g2]; omega)
              refine ⟨q, by simpa using hq1, ?_⟩
              have e1 : s.num_songs + (j + 1) = s0.num_songs + j := by rw [g2]; omega
              rw [e1]
              exact hq2
        · have hel : eligible p = false := by
            unfold eligible
            rw [← is_audio_iff]
            simp [haud]
          obtain ⟨s1, h1, h2, h3, h4, h5⟩ := ih s hrest hn
          refine ⟨s1, ?_, ?_, h3, h4, ?_⟩
          · simp only [scan_loop, hfull, not_true_eq_false, if_false, hp, hskip, haud]
            exact h1
          · simp only [List.filter, hel]; exact h2
          · simp only [List.filter, hel]; exact h5
    · refine ⟨s, ?_, ?_, rfl, fun _ _ => rfl, fun j hj => by omega⟩
      · simp only [scan_loop, hfull, not_false_eq_true, if_true]
      · omega

/-- A list of the right length is the list of its own values. -/
theorem map_range_getD (f : Nat → Nat) (l : List Nat)
    (h : ∀ j, j < l.length → f j = l.getD j 0) : (List.range l.length).map f = l := by
  apply List.ext_getElem
  · simp
  · intro j h1 h2
    simp only [List.getElem_map, List.getElem_range]
    rw [h j h2]
    simp [List.getD_eq_getElem?_getD, List.getElem?_eq_getElem h2]

/-- The scan run by `sd_dir_setup`, on a listing without free slots. -/
theorem sd_dir_setup_spec (s : Song)
    (hfree : ∀ p, p ∈ s.card.root → p.at 0 ≠ DIR_NAME_FREE) :
    ∃ s1, sd_dir_setup s = Except.ok s1 ∧
      s1.num_songs = min (s.card.root.filter eligible).length max_num_songs ∧
      s1.current_song = s.current_song ∧
      ∀ i, i < s1.num_songs →
        ∃ p, (s.card.root.filter eligible)[i]? = some p ∧ holds_name s1.eeprom i p := by
  obtain ⟨s2, h1, h2, _, _, h5⟩ := scan_loop_spec s.card.root
    (({ s with num_songs := 0 }).emit
      [ Out.respondString "\x7b\"command\": \"LIBRARY\",\"songs\":[" ])
    hfree (by simp [Song.emit, max_num_songs])
  simp only [Song.emit, Nat.zero_add] at h1 h2 h5
  refine ⟨{ (s2.emit [ Out.respondString "]\x7d!" ]) with current_song := s.current_song },
    ?_, h2, rfl, fun i hi => h5 i hi⟩
  simp only [sd_dir_setup, Song.emit, h1]

/-- Every byte the scan visits in a name of bytes is a byte. -/
theorem stored_name_lt (p : dir_t) (hb : ∀ c, c ∈ p.name → c < 256) :
    ∀ c, c ∈ stored_name p → c < 256 := by
  intro c hc
  have hc1 : c ∈ name_bytes p := (List.mem_filter.mp hc).1
  simp only [name_bytes, List.mem_map, List.mem_range] at hc1
  obtain ⟨j, _, hj⟩ := hc1
  subst hj
  unfold dir_t.at
  by_cases hl : j < p.name.length
  · rw [List.getD_eq_getElem _ _ hl]
    exact hb _ (List.getElem_mem _)
  · rw [List.getD_eq_default _ _ (by omega)]
    omega

/-- An entry that holds a name of bytes reads back as the stored characters and
NUL. -/
theorem holds_name_bytes (e : Nat → Nat) (i : Nat) (p : dir_t) (h : holds_name e i p)
    (hb : ∀ c, c ∈ stored_name p → c < 256) :
    entry_bytes e i ((stored_name p).length + 1) = stored_name p ++ [0] := by
  unfold entry_bytes
  rw [List.range_succ, List.map_append]
  congr 1
  · apply map_range_getD
    intro j hj
    rw [h.1 j hj]
    apply Nat.mod_eq_of_lt
    rw [List.getD_eq_getElem _ _ hj]
    exact hb _ (List.getElem_mem _)
  · simp [h.2]

/-- C6: for every directory listing of entries (no free slot, which marks the end of a
directory; name bytes are bytes) with N eligible entries among any ineligible ones,
`sd_dir_setup()` completes with `num_songs = min(N, 30)`, and for each `i < num_songs`
catalog entry `i` holds the name of the `i`-th eligible entry in on-media order: its
characters without the padding spaces, then NUL. -/
theorem sd_dir_setup_catalog (s : Song)
    (hfree : ∀ p, p ∈ s.card.root → p.at 0 ≠ DIR_NAME_FREE)
    (hbyte : ∀ p, p ∈ s.card.root → ∀ c, c ∈ p.name → c < 256) :
    ∃ s1, sd_dir_setup s = Except.ok s1 ∧
      s1.num_songs = min (s.card.root.filter eligible).length max_num_songs ∧
      ∀ i, i < s1.num_songs →
        ∃ p, (s.card.root.filter eligible)[i]? = some p ∧
          entry_bytes s1.eeprom i ((stored_name p).length + 1) = stored_name p ++ [0] := by
  obtain ⟨s1, h1, h2, _, h4⟩ := sd_dir_setup_spec s hfree
  refine ⟨s1, h1, h2, fun i hi => ?_⟩
  obtain ⟨p, hp1, hp2⟩ := h4 i hi
  refine ⟨p, hp1, holds_name_bytes _ _ p hp2 (stored_name_lt p ?_)⟩
  have hmem : p ∈ s.card.root.filter eligible := List.getElem?_mem hp1
  exact hbyte p (List.mem_filter.mp hmem).1

/-- Witness of C6: the scan of the sample medium (two audio files around a text
file). -/
theorem sd_dir_setup_catalog_witness :
    (∀ p, p ∈ sample_boot.card.root → p.at 0 ≠ DIR_NAME_FREE) ∧
    (∀ p, p ∈ sample_boot.card.root → ∀ c, c ∈ p.name → c < 256) ∧
    ∃ s1, sd_dir_setup sample_boot = Except.ok s1 ∧
      s1.num_songs = min (sample_boot.card.root.filter eligible).length max_num_songs ∧
      ∀ i, i < s1.num_songs →
        ∃ p, (sample_boot.card.root.filter eligible)[i]? = some p ∧
          entry_bytes s1.eeprom i ((stored_name p).length + 1) = stored_name p ++ [0] :=
  ⟨by decide, by decide, sd_dir_setup_catalog sample_boot (by decide) (by decide)⟩

/-- The catalog the scan leaves consists of terminated entries. -/
theorem sd_dir_setup_terminated (s s1 : Song)
    (hfree : ∀ p, p ∈ s.card.root → p.at 0 ≠ DIR_NAME_FREE)
    (h : sd_dir_setup s = Except.ok s1) :
    ∀ i, i < s1.num_songs → entry_terminated s1.eeprom i := by
  obtain ⟨s2, h1, _, _, h4⟩ := sd_dir_setup_spec s hfree
  rw [h1] at h
  injection h with h
  subst h
  intro i hi
  obtain ⟨p, _, hp⟩ := h4 i hi
  exact holds_name_terminated _ _ p hp

/-! ## Lemmas on the resolved file name -/

/-- The dot restoration on a name of more than 3 and at most 11 characters: the last
three characters move up by one, a dot takes the place of the first of them and NUL
follows the last. -/
theorem restore_dot_spec (fn : Nat → Nat) (L : Nat) (h3 : L > 3) (h13 : L + 1 < max_name_len) :
    ∃ fn5, restore_dot fn L = Except.ok fn5 ∧
      ∀ j, fn5 j =
        if j = L - 3 then 0x2E
        else if j = L - 2 then fn (L - 3)
        else if j = L - 1 then fn (L - 2)
        else if j = L then fn (L - 1)
        else if j = L + 1 then 0
        else fn j := by
  simp only [restore_dot, h3, h13, if_true]
  refine ⟨_, rfl, fun j => ?_⟩
  simp only [Function.update_apply]
  have e1 : L - 1 ≠ L + 1 := by omega
  have e2 : L - 2 ≠ L - 1 := by omega
  have e3 : L - 2 ≠ L := by omega
  have e4 : L - 2 ≠ L + 1 := by omega
  have e5 : L - 3 ≠ L - 2 := by omega
  have e6 : L - 3 ≠ L - 1 := by omega
  have e7 : L - 3 ≠ L := by omega
  have e8 : L - 3 ≠ L + 1 := by omega
  simp only [e1, e2, e3, e4, e5, e6, e7, e8, if_false]

/-- Reading a C string stops at the first NUL. -/
theorem takeWhile_nul (a r : List Nat) (h : ∀ x, x ∈ a → x ≠ 0) :
    (a ++ 0 :: r).takeWhile (fun c => c != 0) = a := by
  induction a with
  | nil => simp
  | cons x a ih =>
    have hx : x ≠ 0 := h x (List.mem_cons_self _ _)
    simp only [List.cons_append, List.takeWhile_cons, bne_iff_ne, ne_eq, hx, not_false_eq_true,
      if_true]
    rw [ih (fun y hy => h y (List.mem_cons_of_mem _ hy))]

/-- The C string in `fn` when its first `n + 1` bytes are `a` and NUL. -/
theorem cstr_of_prefix (fn : Nat → Nat) (a : List Nat) (h0 : ∀ x, x ∈ a → x ≠ 0)
    (hn : a.length + 1 ≤ max_name_len)
    (h : (List.range (a.length + 1)).map fn = a ++ [0]) : cstr fn = a := by
  unfold cstr
  have e : max_name_len = (a.length + 1) + (max_name_len - (a.length + 1)) := by omega
  rw [e, List.range_add, List.map_append, h, List.append_assoc]
  exact takeWhile_nul a _ h0

/-- A name of 11 bytes is visited byte by byte. -/
theorem name_bytes_eq (p : dir_t) (h : p.name.length = 11) : name_bytes p = p.name := by
  unfold name_bytes
  rw [← h]
  exact map_range_getD _ _ (fun j _ => rfl)

/-- Resolving a catalog entry that holds the characters `a` followed by the three
characters `x y z` and NUL puts `a.xyz` and NUL into `fn`. -/
theorem resolve_spec (s : Song) (a : List Nat) (x y z : Nat)
    (h1 : 1 ≤ a.length) (h8 : a.length ≤ 8)
    (hnz : ∀ c, c ∈ a ++ [x, y, z] → c ≠ 0)
    (hv : ∀ j, j < a.length + 3 →
      s.eeprom (FILE_NAMES_START + s.current_song * max_name_len + j) =
        (a ++ [x, y, z]).getD j 0)
    (hz : s.eeprom (FILE_NAMES_START + s.current_song * max_name_len + (a.length + 3)) = 0) :
    ∃ fn, map_current_song_to_fn s = Except.ok { s with fn := fn } ∧
      (List.range (a.length + 5)).map fn = a ++ [0x2E, x, y, z, 0] ∧
      cstr fn = a ++ [0x2E, x, y, z] := by
  have hpre : ∀ j, j < a.length + 3 →
      s.eeprom (FILE_NAMES_START + s.current_song * max_name_len + j) ≠ 0 := by
    intro j hj
    rw [hv j hj]
    apply hnz
    have hj2 : j < (a ++ [x, y, z]).length := by simp; omega
    rw [List.getD_eq_getElem _ _ hj2]
    exact List.getElem_mem _
  obtain ⟨m1, m2⟩ := map_loop_spec s.eeprom _ (a.length + 3) hz hpre max_name_len 0 s.fn
    (Nat.zero_le _) (by simp only [max_name_len]; omega)
  obtain ⟨fn5, r1, r2⟩ := restore_dot_spec
    (map_loop s.eeprom (FILE_NAMES_START + s.current_song * max_name_len) max_name_len 0 s.fn).1
    (a.length + 3) (by omega) (by simp only [max_name_len]; omega)
  have hk : ∀ j, j ≤ a.length + 3 →
      (map_loop s.eeprom (FILE_NAMES_START + s.current_song * max_name_len)
        max_name_len 0 s.fn).1 j =
      s.eeprom (FILE_NAMES_START + s.current_song * max_name_len + j) := by
    intro j hj
    rw [m2 j]
    simp [hj]
  have hlist : (List.range (a.length + 5)).map fn5 = a ++ [0x2E, x, y, z, 0] := by
    have hr : List.range (a.length + 5) = List.range a.length ++
        [a.length, a.length + 1, a.length + 2, a.length + 3, a.length + 4] := by
      simp [List.range_succ]
    rw [hr, List.map_append]
    congr 1
    · apply map_range_getD
      intro j hj
      rw [r2 j]
      have c1 : j ≠ a.length + 3 - 3 := by omega
      have c2 : j ≠ a.length + 3 - 2 := by omega
      have c3 : j ≠ a.length + 3 - 1 := by omega
      have c4 : j ≠ a.length + 3 := by omega
      have c5 : j ≠ a.length + 3 + 1 := by omega
      simp only [c1, c2, c3, c4, c5, if_false]
      rw [hk j (by omega), hv j (by omega), List.getD_append _ _ _ _ hj]
    · have v0 : fn5 a.length = 0x2E := by
        rw [r2]; simp
      have v1 : fn5 (a.length + 1) = x := by
        rw [r2]
        have c1 : a.length + 1 ≠ a.length + 3 - 3 := by omega
        have c2 : a.length + 1 = a.length + 3 - 2 := by omega
        simp only [c1, if_false, ← c2, if_true]
        rw [hk _ (by omega), hv _ (by omega),
          List.getD_append_right _ _ _ _ (by omega)]
        simp
      have v2 : fn5 (a.length + 2) = y := by
        rw [r2]
        have c1 : a.length + 2 ≠ a.length + 3 - 3 := by omega
        have c2 : a.length + 2 ≠ a.length + 3 - 2 := by omega
        have c3 : a.length + 2 = a.length + 3 - 1 := by omega
        simp only [c1, c2, if_false, ← c3, if_true]
        rw [hk _ (by omega), hv _ (by omega),
          List.getD_append_right _ _ _ _ (by omega)]
        have : a.length + 3 - 2 - a.length = 1 := by omega
        simp [this]
      have v3 : fn5 (a.length + 3) = z := by
        rw [r2]
        have c1 : a.length + 3 ≠ a.length + 3 - 3 := by omega
        have c2 : a.length + 3 ≠ a.length + 3 - 2 := by omega
        have c3 : a.length + 3 ≠ a.length + 3 - 1 := by omega
        simp only [c1, c2, c3, if_false, if_true]
        rw [hk _ (by omega), hv _ (by omega),
          List.getD_append_right _ _ _ _ (by omega)]
        have : a.length + 3 - 1 - a.length = 2 := by omega
        simp [this]
      have v4 : fn5 (a.length + 4) = 0 := by
        rw [r2]
        have c1 : a.length + 4 ≠ a.length + 3 - 3 := by omega
        have c2 : a.length + 4 ≠ a.length + 3 - 2 := by omega
        have c3 : a.length + 4 ≠ a.length + 3 - 1 := by omega
        have c4 : a.length + 4 ≠ a.length + 3 := by omega
        simp only [c1, c2, c3, c4, if_false, if_true]
      simp [v0, v1, v2, v3, v4]
  refine ⟨fn5, ?_, hlist, ?_⟩
  · unfold map_current_song_to_fn
    simp only [m1, r1]
  · apply cstr_of_prefix
    · intro c hc
      simp only [List.mem_append, List.mem_cons, List.mem_singleton, List.not_mem_nil,
        or_false] at hc
      rcases hc with hc | hc | hc | hc | hc
      · exact hnz c (List.mem_append_left _ hc)
      · omega
      · exact hnz c (by simp [hc])
      · exact hnz c (by simp [hc])
      · exact hnz c (by simp [hc])
    · simp [max_name_len]; omega
    · have : (a ++ [0x2E, x, y, z]).length + 1 = a.length + 5 := by simp
      rw [this, hlist]
      simp

/-- C7: a padded 8.3 name of `k` characters (1 to 8 bytes that are neither space nor
NUL), `8 - k` spaces and the extension `MP3` or `WAV`, stored as catalog entry `i` the
way the scan stores it, resolves with `map_current_song_to_fn()` to the characters,
a dot, the extension and NUL in `fn`, that is to the C string `base.ext`. -/
theorem filename_round_trip (s : Song) (base ext : List Nat) (i attr : Nat)
    (hk1 : 1 ≤ base.length) (hk8 : base.length ≤ 8)
    (hchar : ∀ c, c ∈ base → c ≠ 0x20 ∧ c ≠ 0 ∧ c < 256)
    (hext : ext = [0x4D, 0x50, 0x33] ∨ ext = [0x57, 0x41, 0x56]) :
    ∃ fn,
      map_current_song_to_fn
        { s with
          eeprom := store_name s.eeprom i
            { name := base ++ List.replicate (8 - base.length) 0x20 ++ ext,
              attributes := attr },
          current_song := i }
        = Except.ok
          { s with
            eeprom := store_name s.eeprom i
              { name := base ++ List.replicate (8 - base.length) 0x20 ++ ext,
                attributes := attr },
            current_song := i,
            fn := fn } ∧
      (List.range (base.length + 5)).map fn = base ++ [0x2E] ++ ext ++ [0] ∧
      cstr fn = base ++ [0x2E] ++ ext := by
  obtain ⟨x, y, z, hxyz, hx, hy, hz⟩ : ∃ x y z, ext = [x, y, z] ∧
      (x ≠ 0x20 ∧ x ≠ 0 ∧ x < 256) ∧ (y ≠ 0x20 ∧ y ≠ 0 ∧ y < 256) ∧
      (z ≠ 0x20 ∧ z ≠ 0 ∧ z < 256) := by
    rcases hext with h | h
    · exact ⟨0x4D, 0x50, 0x33, h, by decide, by decide, by decide⟩
    · exact ⟨0x57, 0x41, 0x56, h, by decide, by decide, by decide⟩
  subst hxyz
  have hall : ∀ c, c ∈ base ++ [x, y, z] → c ≠ 0x20 ∧ c ≠ 0 ∧ c < 256 := by
    intro c hc
    simp only [List.mem_append, List.mem_cons, List.mem_singleton, List.not_mem_nil,
      or_false] at hc
    rcases hc with hc | hc | hc | hc
    · exact hchar c hc
    · rw [hc]; exact hx
    · rw [hc]; exact hy
    · rw [hc]; exact hz
  have hstored : stored_name
      { name := base ++ List.replicate (8 - base.length) 0x20 ++ [x, y, z],
        attributes := attr } = base ++ [x, y, z] := by
    unfold stored_name
    rw [name_bytes_eq _ (by simp; omega)]
    simp only [List.filter_append]
    have f1 : base.filter not_space = base :=
      List.filter_eq_self.mpr (fun c hc => by simp [not_space, (hchar c hc).1])
    have f2 : (List.replicate (8 - base.length) 0x20).filter not_space = [] :=
      List.filter_eq_nil_iff.mpr (fun c hc => by
        rw [List.eq_of_mem_replicate hc]; simp [not_space])
    have f3 : [x, y, z].filter not_space = [x, y, z] :=
      List.filter_eq_self.mpr (fun c hc => by simp [not_space, (hall c (by simp [hc])).1])
    rw [f1, f2, f3, List.append_nil]
  obtain ⟨⟨hh1, hh2⟩, _⟩ := store_name_spec s.eeprom i
    { name := base ++ List.replicate (8 - base.length) 0x20 ++ [x, y, z], attributes := attr }
  rw [hstored] at hh1 hh2
  simp only [List.length_append, List.length_cons, List.length_nil] at hh1 hh2
  obtain ⟨fn, g1, g2, g3⟩ := resolve_spec
    { s with
      eeprom := store_name s.eeprom i
        { name := base ++ List.replicate (8 - base.length) 0x20 ++ [x, y, z],
          attributes := attr },
      current_song := i }
    base x y z hk1 hk8 (fun c hc => (hall c hc).2.1)
    (fun j hj => by
      show store_name s.eeprom i _ (FILE_NAMES_START + i * max_name_len + j) = _
      rw [hh1 j (by omega)]
      apply Nat.mod_eq_of_lt
      have hj2 : j < (base ++ [x, y, z]).length := by simp; omega
      rw [List.getD_eq_getElem _ _ hj2]
      exact (hall _ (List.getElem_mem _)).2.2)
    hh2
  exact ⟨fn, g1, by simpa using g2, by simpa using g3⟩

/-- Witness of C7: `SONG1   MP3` stored as entry 0 resolves to `SONG1.MP3`. -/
theorem filename_round_trip_witness :
    1 ≤ [0x53, 0x4F, 0x4E, 0x47, 0x31].length ∧ [0x53, 0x4F, 0x4E, 0x47, 0x31].length ≤ 8 ∧
    (∀ c, c ∈ [0x53, 0x4F, 0x4E, 0x47, 0x31] → c ≠ 0x20 ∧ c ≠ 0 ∧ c < 256) ∧
    ([0x4D, 0x50, 0x33] = [0x4D, 0x50, 0x33] ∨ [0x4D, 0x50, 0x33] = [0x57, 0x41, 0x56]) ∧
    ∃ fn,
      map_current_song_to_fn
        { sample_boot with
          eeprom := store_name sample_boot.eeprom 0
            { name := [0x53, 0x4F, 0x4E, 0x47, 0x31] ++
                List.replicate (8 - [0x53, 0x4F, 0x4E, 0x47, 0x31].length) 0x20 ++
                [0x4D, 0x50, 0x33],
              attributes := 0x20 },
          current_song := 0 }
        = Except.ok
          { sample_boot with
            eeprom := store_name sample_boot.eeprom 0
              { name := [0x53, 0x4F, 0x4E, 0x47, 0x31] ++
                  List.replicate (8 - [0x53, 0x4F, 0x4E, 0x47, 0x31].length) 0x20 ++
                  [0x4D, 0x50, 0x33],
                attributes := 0x20 },
            current_song := 0,
            fn := fn } ∧
      (List.range ([0x53, 0x4F, 0x4E, 0x47, 0x31].length + 5)).map fn =
        [0x53, 0x4F, 0x4E, 0x47, 0x31] ++ [0x2E] ++ [0x4D, 0x50, 0x33] ++ [0] ∧
      cstr fn = [0x53, 0x4F, 0x4E, 0x47, 0x31] ++ [0x2E] ++ [0x4D, 0x50, 0x33] :=
  ⟨by decide, by decide, by decide, by decide,
    filename_round_trip sample_boot [0x53, 0x4F, 0x4E, 0x47, 0x31] [0x4D, 0x50, 0x33] 0 0x20
      (by decide) (by decide) (by decide) (by decide)⟩

/-! ## The drain of a 1000-byte track -/

/-- A tick inside the track: a full chunk at cursor 0. -/
theorem tick_1000_a (r : Bool) (s : Song) :
    loop (at_1000 r s 0 0 [] []) = Except.ok (at_1000 r s 256 25 [256] (seek_frame 25)) := by
  simp only [loop, dir_play, mp3_play, at_1000, SdFile.read, read_buffer, getFileSize,
    SdFile.fileSize, Song.emit, seek_frame, if_true]
  norm_num [toInt16, DIR_PLAY, IDLE]

set_option maxRecDepth 8000 in
/-- A tick inside the track: a full chunk at cursor 256. -/
theorem tick_1000_b (r : Bool) (s : Song) (pl : List Nat) (o : List Out) :
    loop (at_1000 r s 256 25 pl o) =
      Except.ok (at_1000 r s 512 51 (pl ++ [256]) (o ++ seek_frame 51)) := by
  simp only [loop, dir_play, mp3_play, at_1000, SdFile.read, read_buffer, getFileSize,
    SdFile.fileSize, Song.emit, seek_frame, if_true]
  norm_num [toInt16, DIR_PLAY, IDLE]

set_option maxRecDepth 8000 in
/-- A tick inside the track: a full chunk at cursor 512. -/
theorem tick_1000_c (r : Bool) (s : Song) (pl : List Nat) (o : List Out) :
    loop (at_1000 r s 512 51 pl o) =
      Except.ok (at_1000 r s 768 76 (pl ++ [256]) (o ++ seek_frame 76)) := by
  simp only [loop, dir_play, mp3_play, at_1000, SdFile.read, read_buffer, getFileSize,
    SdFile.fileSize, Song.emit, seek_frame, if_true]
  norm_num [toInt16, DIR_PLAY, IDLE]

set_option maxRecDepth 8000 in
/-- The last tick with repeat off: the short read of 232 bytes ends the track. -/
theorem tick_1000_d (s : Song) (pl : List Nat) (o : List Out) :
    loop (at_1000 false s 768 76 pl o) =
      Except.ok
        { at_1000 false s 768 76 pl o with
          sd_file := SdFile.closed,
          bytesPlayed := 1000,
          currPosition := 100,
          current_state := IDLE,
          Mp3_played := s.Mp3_played ++ (pl ++ [232]),
          out := s.out ++ (o ++ seek_frame 100) } := by
  simp only [loop, dir_play, mp3_play, at_1000, SdFile.read, read_buffer, getFileSize,
    SdFile.fileSize, Song.emit, seek_frame, if_true, nextFileExists, SdFile.close]
  norm_num [toInt16, DIR_PLAY, IDLE]

/-- C8 as stated fails: with `repeat` as `Song.cpp` initialises it (true), the fourth
tick on the single 1000-byte track reads the last 232 bytes and then reopens track 0; the
state machine is in DIR_PLAY, not IDLE, the session is open and the position is 0. -/
theorem drain_repeat_counterexample :
    solo_song.current_state = DIR_PLAY ∧ solo_song.num_songs = 1 ∧
    solo_song.sd_file.fileSize_ = 1000 ∧ solo_song.bytesPlayed = 0 ∧
    solo_song.currPosition = 0 ∧ solo_song.repeat_ = true ∧
    ∃ s4, ticks 4 solo_song = Except.ok s4 ∧ s4.Mp3_played = [256, 256, 256, 232] ∧
      s4.current_state = DIR_PLAY ∧ s4.current_state ≠ IDLE ∧ s4.sd_file.isOpen = true ∧
      s4.currPosition = 0 ∧ s4.bytesPlayed = 0 := by
  refine ⟨by decide, by decide, by decide, by decide, by decide, by decide, _, rfl,
    ?_, ?_, ?_, ?_, ?_, ?_⟩ <;> decide

/-- C8 amended (repeat mode off): from DIR_PLAY with a catalog of one 1000-byte track
freshly opened, four consecutive `loop()` calls complete and read 256, 256, 256 and 232
bytes; `currPosition` is 25, 51, 76, 100 after them, each tick makes exactly one position
notification, the first three leave DIR_PLAY and the fourth closes the session and
leaves IDLE. -/
theorem drain_1000 (s : Song) :
    ∃ s1 s2 s3 s4,
      loop (fresh_1000 false s) = Except.ok s1 ∧ loop s1 = Except.ok s2 ∧
      loop s2 = Except.ok s3 ∧ loop s3 = Except.ok s4 ∧
      s1.Mp3_played = s.Mp3_played ++ [256] ∧
      s2.Mp3_played = s.Mp3_played ++ [256, 256] ∧
      s3.Mp3_played = s.Mp3_played ++ [256, 256, 256] ∧
      s4.Mp3_played = s.Mp3_played ++ [256, 256, 256, 232] ∧
      s1.currPosition = 25 ∧ s2.currPosition = 51 ∧ s3.currPosition = 76 ∧
      s4.currPosition = 100 ∧
      s1.out = (fresh_1000 false s).out ++ seek_frame 25 ∧
      s2.out = s1.out ++ seek_frame 51 ∧
      s3.out = s2.out ++ seek_frame 76 ∧
      s4.out = s3.out ++ seek_frame 100 ∧
      s1.current_state = DIR_PLAY ∧ s2.current_state = DIR_PLAY ∧
      s3.current_state = DIR_PLAY ∧ s4.current_state = IDLE ∧
      s3.sd_file.isOpen = true ∧ s4.sd_file.isOpen = false := by
  have h0 : fresh_1000 false s = at_1000 false s 0 0 [] [] := by
    simp [fresh_1000, at_1000]
  refine ⟨_, _, _, _, ?_, tick_1000_b false s [256] (seek_frame 25),
    tick_1000_c false s _ _, tick_1000_d s _ _, ?_⟩
  · rw [h0]; exact tick_1000_a false s
  · simp [at_1000, fresh_1000, SdFile.closed]

/-! ## State validity -/

/-- A completed feed keeps `last_state` and leaves `current_state` alone or sets it to
IDLE. -/
theorem mp3_play_state (s s1 : Song) (h : mp3_play s = Except.ok s1) :
    s1.last_state = s.last_state ∧
    (s1.current_state = s.current_state ∨ s1.current_state = IDLE) := by
  unfold mp3_play at h
  simp only at h
  split at h
  · cases h
  · split at h <;> split at h <;> injection h with h <;> subst h <;>
      simp [Song.emit]

/-- A completed `nextFile` keeps both state variables. -/
theorem nextFile_state (s s1 : Song) (b : Bool) (h : nextFile s = Except.ok (b, s1)) :
    s1.last_state = s.last_state ∧ s1.current_state = s.current_state := by
  unfold nextFile at h
  split at h
  · injection h with h; injection h with _ h; subst h; exact ⟨rfl, rfl⟩
  · split at h
    · cases h
    · split at h
      · cases h
      · rename_i s2 hs2
        obtain ⟨_, _, _, _, _, p6, p7, _⟩ := sd_file_open_post _ _ hs2
        injection h with h; injection h with _ h; subst h
        exact ⟨p7, p6⟩

/-- A completed `prevFile` keeps both state variables. -/
theorem prevFile_state (s s1 : Song) (b : Bool) (h : prevFile s = Except.ok (b, s1)) :
    s1.last_state = s.last_state ∧ s1.current_state = s.current_state := by
  unfold prevFile at h
  split at h
  · injection h with h; injection h with _ h; subst h; exact ⟨rfl, rfl⟩
  · split at h
    · cases h
    · rename_i s2 hs2
      obtain ⟨_, _, _, _, _, p6, p7, _⟩ := sd_file_open_post _ _ hs2
      injection h with h; injection h with _ h; subst h
      exact ⟨p7, p6⟩

/-- A completed `setSong` keeps both state variables. -/
theorem setSong_state (i : Int) (s s1 : Song) (h : setSong i s = Except.ok s1) :
    s1.last_state = s.last_state ∧ s1.current_state = s.current_state := by
  unfold setSong at h
  split at h
  · cases h
  · rename_i s2 hs2
    obtain ⟨_, _, _, _, _, p6, p7, _⟩ := sd_file_open_post _ _ hs2
    injection h with h; subst h
    exact ⟨p7, p6⟩

/-- A completed `dir_play` keeps `last_state` and leaves `current_state` alone or sets
it to IDLE or DIR_PLAY. -/
theorem dir_play_state (s s1 : Song) (h : dir_play s = Except.ok s1) :
    s1.last_state = s.last_state ∧
    (s1.current_state = s.current_state ∨ s1.current_state = IDLE ∨
      s1.current_state = DIR_PLAY) := by
  unfold dir_play at h
  split at h
  · split at h
    · cases h
    · rename_i s2 hs2
      obtain ⟨m1, m2⟩ := mp3_play_state _ _ hs2
      split at h
      · simp only at h
        split at h
        · cases h
        · rename_i r hr
          obtain ⟨n1, n2⟩ := nextFile_state _ r.2 r.1 hr
          injection h with h; subst h
          simp only [Song.emit] at n1 n2 ⊢
          exact ⟨n1.trans m1, Or.inr (Or.inr n2)⟩
      · injection h with h; subst h
        rcases m2 with m2 | m2
        · exact ⟨m1, Or.inl m2⟩
        · exact ⟨m1, Or.inr (Or.inl m2)⟩
  · injection h with h; subst h
    exact ⟨rfl, Or.inl rfl⟩

/-- Every transition keeps the two state variables among the enumerators. -/
theorem transition_is_state (s s1 : Song) (hc : is_state s.current_state)
    (hl : is_state s.last_state) (ht : Transition s s1) :
    is_state s1.current_state ∧ is_state s1.last_state := by
  cases ht with
  | tick _ _ h =>
    unfold loop at h
    split at h
    · obtain ⟨d1, d2⟩ := dir_play_state _ _ h
      refine ⟨?_, d1 ▸ hl⟩
      rcases d2 with d | d | d
      · exact d ▸ hc
      · exact Or.inr (Or.inr d)
      · exact Or.inl d
    · split at h
      · obtain ⟨d1, d2⟩ := mp3_play_state _ _ h
        refine ⟨?_, d1 ▸ hl⟩
        rcases d2 with d | d
        · exact d ▸ hc
        · exact Or.inr (Or.inr d)
      · injection h with h; subst h; exact ⟨hc, hl⟩
  | pause =>
    unfold pause
    split
    · exact ⟨Or.inr (Or.inr rfl), hc⟩
    · exact ⟨hc, hl⟩
  | play =>
    unfold play
    split
    · refine ⟨?_, hl⟩
      simp only
      split
      · exact hl
      · exact Or.inl rfl
    · exact ⟨hc, hl⟩
  | setSong i _ _ h =>
    obtain ⟨d1, d2⟩ := setSong_state i _ _ h
    exact ⟨d2 ▸ hc, d1 ▸ hl⟩
  | nextFile _ _ b h =>
    obtain ⟨d1, d2⟩ := nextFile_state _ _ b h
    exact ⟨d2 ▸ hc, d1 ▸ hl⟩
  | prevFile _ _ b h =>
    obtain ⟨d1, d2⟩ := prevFile_state _ _ b h
    exact ⟨d2 ▸ hc, d1 ▸ hl⟩

/-- On an enumerator, `isPlaying` is true exactly on DIR_PLAY and MP3_PLAY and false
exactly on IDLE. -/
theorem isPlaying_of_is_state (s : Song) (hc : is_state s.current_state) :
    (isPlaying s = true ↔ s.current_state = DIR_PLAY ∨ s.current_state = MP3_PLAY) ∧
    (isPlaying s = false ↔ s.current_state = IDLE) := by
  rcases hc with h | h | h <;> simp [isPlaying, h, DIR_PLAY, MP3_PLAY, IDLE]

/-- C10: in every state whose `current_state` and `last_state` are enumerators of
`enum state`, `isPlaying()` is true exactly when `current_state` is DIR_PLAY or
MP3_PLAY and false exactly when it is IDLE, and the same holds in the state reached by
every transition: a completed `loop()`, `pause()`, `play()`, and a completed
`setSong`, `nextFile` or `prevFile`. -/
theorem isPlaying_iff (s : Song) (hc : is_state s.current_state)
    (hl : is_state s.last_state) :
    ((isPlaying s = true ↔ s.current_state = DIR_PLAY ∨ s.current_state = MP3_PLAY) ∧
     (isPlaying s = false ↔ s.current_state = IDLE)) ∧
    ∀ s1, Transition s s1 →
      is_state s1.current_state ∧ is_state s1.last_state ∧
      (isPlaying s1 = true ↔ s1.current_state = DIR_PLAY ∨ s1.current_state = MP3_PLAY) ∧
      (isPlaying s1 = false ↔ s1.current_state = IDLE) := by
  refine ⟨isPlaying_of_is_state s hc, fun s1 ht => ?_⟩
  obtain ⟨h1, h2⟩ := transition_is_state s s1 hc hl ht
  exact ⟨h1, h2, isPlaying_of_is_state s1 h1⟩

/-- Witness of C10 on the sample state. -/
theorem isPlaying_iff_witness :
    is_state sample_song.current_state ∧ is_state sample_song.last_state ∧
    (((isPlaying sample_song = true ↔
        sample_song.current_state = DIR_PLAY ∨ sample_song.current_state = MP3_PLAY) ∧
      (isPlaying sample_song = false ↔ sample_song.current_state = IDLE)) ∧
     ∀ s1, Transition sample_song s1 →
       is_state s1.current_state ∧ is_state s1.last_state ∧
       (isPlaying s1 = true ↔ s1.current_state = DIR_PLAY ∨ s1.current_state = MP3_PLAY) ∧
       (isPlaying s1 = false ↔ s1.current_state = IDLE)) :=
  ⟨by decide, by decide, isPlaying_iff sample_song (by decide) (by decide)⟩

/-! ## The session after `sd_file_open` -/

/-- Without a NUL among the bytes it visits, the read loop leaves `null_index` at
`max_name_len - 1`. -/
theorem map_loop_no_nul (e : Nat → Nat) (base : Nat) :
    ∀ (n i : Nat) (fn : Nat → Nat), (∀ j, i ≤ j → j < i + n → e (base + j) ≠ 0) →
      (map_loop e base n i fn).2 = max_name_len - 1 := by
  intro n
  induction n with
  | zero => intro i fn _; rfl
  | succ k ih =>
    intro i fn h
    have hi : e (base + i) ≠ 0 := h i (le_refl _) (by omega)
    simp only [map_loop, EEPROM_read, Function.update_same, hi, if_false]
    exact ih (i + 1) _ (fun j h1 h2 => h j (by omega) (by omega))

/-- Two buffers that agree up to a NUL hold the same C string. -/
theorem cstr_congr (f g : Nat → Nat) (n : Nat) (hn : n < max_name_len) (h0 : f n = 0)
    (hfg : ∀ j, j ≤ n → f j = g j) : cstr f = cstr g := by
  have key : ∀ (u : Nat → Nat), u n = 0 →
      cstr u = ((List.range n).map u).takeWhile (fun c => c != 0) := by
    intro u hu
    unfold cstr
    have e : max_name_len = (n + 1) + (max_name_len - (n + 1)) := by omega
    rw [e, List.range_add, List.map_append, List.range_succ, List.map_append,
      List.map_singleton, hu, List.append_assoc, List.singleton_append]
    generalize (List.range n).map u = m
    generalize List.map u _ = r
    induction m with
    | nil => simp
    | cons x m ih =>
      by_cases hx : x = 0
      · simp [List.takeWhile_cons, hx]
      · simp [List.takeWhile_cons, hx, ih]
  rw [key f h0, key g (by rw [← hfg n (le_refl _)]; exact h0)]
  congr 1
  apply List.map_congr_left
  intro j hj
  exact hfg j (by have := List.mem_range.mp hj; omega)

/-- The name a completed `map_current_song_to_fn` leaves in `fn` depends on the byte
store and the track index only, not on what `fn` held before. -/
theorem map_current_song_to_fn_cstr (s s2 t : Song)
    (h : map_current_song_to_fn s = Except.ok s2)
    (he : t.eeprom = s.eeprom) (hc : t.current_song = s.current_song) :
    ∃ t2, map_current_song_to_fn t = Except.ok t2 ∧ cstr t2.fn = cstr s2.fn := by
  classical
  unfold map_current_song_to_fn at h ⊢
  simp only [he, hc] at h ⊢
  by_cases hex : ∃ k, k < max_name_len ∧
      s.eeprom (FILE_NAMES_START + s.current_song * max_name_len + k) = 0
  · have hL1 := (Nat.find_spec hex).1
    have hL2 := (Nat.find_spec hex).2
    have hL3 : ∀ j, j < Nat.find hex →
        s.eeprom (FILE_NAMES_START + s.current_song * max_name_len + j) ≠ 0 :=
      fun j hj hz => Nat.find_min hex hj ⟨by omega, hz⟩
    generalize Nat.find hex = L at hL1 hL2 hL3
    obtain ⟨a1, a2⟩ := map_loop_spec s.eeprom _ L hL2 hL3 max_name_len 0 s.fn
      (Nat.zero_le _) (by omega)
    obtain ⟨b1, b2⟩ := map_loop_spec s.eeprom _ L hL2 hL3 max_name_len 0 t.fn
      (Nat.zero_le _) (by omega)
    rw [a1] at h
    rw [b1]
    by_cases h3 : L > 3
    · by_cases h13 : L + 1 < max_name_len
      · obtain ⟨fa, ra1, ra2⟩ := restore_dot_spec
          (map_loop s.eeprom (FILE_NAMES_START + s.current_song * max_name_len)
            max_name_len 0 s.fn).1 L h3 h13
        obtain ⟨fb, rb1, rb2⟩ := restore_dot_spec
          (map_loop s.eeprom (FILE_NAMES_START + s.current_song * max_name_len)
            max_name_len 0 t.fn).1 L h3 h13
        rw [ra1] at h
        rw [rb1]
        injection h with h
        subst h
        refine ⟨_, rfl, ?_⟩
        apply cstr_congr fb fa (L + 1) h13
        · rw [rb2]
          have c1 : L + 1 ≠ L - 3 := by omega
          have c2 : L + 1 ≠ L - 2 := by omega
          have c3 : L + 1 ≠ L - 1 := by omega
          have c4 : L + 1 ≠ L := by omega
          simp only [c1, c2, c3, c4, if_false, if_true]
        · intro j hj
          have q : ∀ i, i ≤ L →
              (map_loop s.eeprom (FILE_NAMES_START + s.current_song * max_name_len)
                max_name_len 0 t.fn).1 i =
              (map_loop s.eeprom (FILE_NAMES_START + s.current_song * max_name_len)
                max_name_len 0 s.fn).1 i := by
            intro i hi
            rw [a2 i, b2 i]
            simp [hi]
          rw [ra2 j, rb2 j, q (L - 3) (by omega), q (L - 2) (by omega), q (L - 1) (by omega)]
          by_cases hjL : j ≤ L
          · rw [q j hjL]
          · have c1 : j ≠ L - 3 := by omega
            have c2 : j ≠ L - 2 := by omega
            have c3 : j ≠ L - 1 := by omega
            have c4 : j ≠ L := by omega
            have c5 : j = L + 1 := by omega
            simp only [c1, c2, c3, c4, c5, if_false, if_true]
      · simp only [restore_dot, h3, h13, if_true, if_false] at h
        cases h
    · simp only [restore_dot, h3, if_false] at h ⊢
      injection h with h
      subst h
      refine ⟨_, rfl, ?_⟩
      apply cstr_congr _ _ L hL1
      · show (map_loop s.eeprom _ max_name_len 0 t.fn).1 L = 0
        rw [b2 L]
        simp [hL2]
      · intro j hj
        show (map_loop s.eeprom _ max_name_len 0 t.fn).1 j =
          (map_loop s.eeprom _ max_name_len 0 s.fn).1 j
        rw [a2 j, b2 j]
        simp [hj]
  · have hno : ∀ j, 0 ≤ j → j < 0 + max_name_len →
        s.eeprom (FILE_NAMES_START + s.current_song * max_name_len + j) ≠ 0 :=
      fun j _ hj hz => hex ⟨j, by omega, hz⟩
    rw [map_loop_no_nul s.eeprom _ max_name_len 0 s.fn hno] at h
    simp [restore_dot, max_name_len] at h

/-- After every completed `sd_file_open` the session corresponds to the track: a file
it holds open is the one the catalog entry at `current_song` resolves to. -/
theorem sd_file_open_matches (s s1 : Song) (h : sd_file_open s = Except.ok s1) :
    session_matches s1 := by
  obtain ⟨p1, _, p3, _, _, _, _, _, _, p10, _⟩ := sd_file_open_post s s1 h
  unfold sd_file_open at h
  simp only at h
  split at h
  · cases h
  · rename_i s2 hs2
    injection h with h
    have hfn : s1.fn = s2.fn := by subst h; simp [sendSongInfo, Song.emit]
    obtain ⟨t2, ht1, ht2⟩ := map_current_song_to_fn_cstr _ s2 s1 hs2 p3 p1
    intro hopen
    unfold resolved_name
    rw [ht1]
    simp only [ht2, ← hfn]
    rw [p10] at hopen ⊢
    unfold SdFile.open at hopen ⊢
    split at hopen
    · rename_i sz hsz
      simp [hsz]
    · simp [SdFile.closed] at hopen

/-- A write to the persisted track byte does not change what the catalog resolves
to. -/
theorem resolved_name_track_write (s : Song) (v : Nat) :
    resolved_name { s with eeprom := EEPROM_write s.eeprom EEPROM_TRACK v } =
      resolved_name s := by
  have hagree : ∀ j, EEPROM_write s.eeprom EEPROM_TRACK v
      (FILE_NAMES_START + s.current_song * max_name_len + j) =
      s.eeprom (FILE_NAMES_START + s.current_song * max_name_len + j) := by
    intro j
    have : FILE_NAMES_START + s.current_song * max_name_len + j ≠ EEPROM_TRACK := by
      simp only [FILE_NAMES_START, EEPROM_TRACK]; omega
    simp [EEPROM_write, this]
  have hloop : ∀ (n i : Nat) (fn : Nat → Nat),
      map_loop (EEPROM_write s.eeprom EEPROM_TRACK v)
        (FILE_NAMES_START + s.current_song * max_name_len) n i fn =
      map_loop s.eeprom (FILE_NAMES_START + s.current_song * max_name_len) n i fn := by
    intro n
    induction n with
    | zero => intro i fn; rfl
    | succ k ih =>
      intro i fn
      simp only [map_loop, EEPROM_read, hagree, ih]
  unfold resolved_name map_current_song_to_fn
  simp only [hloop]
  cases restore_dot _ _ <;> rfl

/-- The correspondence holds after every completed `setSong`. -/
theorem setSong_matches (i : Int) (s s1 : Song) (h : setSong i s = Except.ok s1) :
    session_matches s1 := by
  unfold setSong at h
  split at h
  · cases h
  · rename_i s2 hs2
    injection h with h
    subst h
    have := sd_file_open_matches _ _ hs2
    unfold session_matches at this ⊢
    rw [resolved_name_track_write]
    exact this

/-- The correspondence holds after every successful `nextFile`. -/
theorem nextFile_matches (s s1 : Song) (h : nextFile s = Except.ok (true, s1)) :
    session_matches s1 := by
  unfold nextFile at h
  split at h
  · injection h with h; injection h with h _; cases h
  · split at h
    · cases h
    · split at h
      · cases h
      · rename_i s2 hs2
        injection h with h; injection h with _ h
        subst h
        have := sd_file_open_matches _ _ hs2
        unfold session_matches at this ⊢
        rw [resolved_name_track_write]
        exact this

/-- The correspondence holds after every successful `prevFile`. -/
theorem prevFile_matches (s s1 : Song) (h : prevFile s = Except.ok (true, s1)) :
    session_matches s1 := by
  unfold prevFile at h
  split at h
  · injection h with h; injection h with h _; cases h
  · split at h
    · cases h
    · rename_i s2 hs2
      injection h with h; injection h with _ h
      subst h
      have := sd_file_open_matches _ _ hs2
      unfold session_matches at this ⊢
      rw [resolved_name_track_write]
      exact this

/-- C9, evaluated on the sample medium (`A.MP3`, a text file, `B.WAV`) from the boot
state with `current_song = 0`: `sd_dir_setup()` completes with two tracks and
`current_song` restored to 0, but the session holds `B.WAV`, the last file probed,
while catalog entry 0 resolves to `A.MP3`, so the correspondence fails; the `seek`
that `setup()` runs next keeps that file. Opening the track (`setSong(0)`, which calls
`sd_file_open`) restores the correspondence. -/
theorem scan_leaves_last_probe_open :
    sd_dir_setup sample_boot = Except.ok sample_scanned ∧
    sample_scanned.num_songs = 2 ∧ sample_scanned.current_song = 0 ∧
    sample_scanned.sd_file.isOpen = true ∧
    sample_scanned.sd_file.name = [0x42, 0x2E, 0x57, 0x41, 0x56] ∧
    resolved_name sample_scanned = some [0x41, 0x2E, 0x4D, 0x50, 0x33] ∧
    ¬ session_matches sample_scanned ∧
    (seek 0 sample_scanned).2.sd_file.name = [0x42, 0x2E, 0x57, 0x41, 0x56] ∧
    setSong 0 sample_scanned = Except.ok sample_reopened ∧
    sample_reopened.sd_file.isOpen = true ∧
    sample_reopened.sd_file.name = [0x41, 0x2E, 0x4D, 0x50, 0x33] ∧
    session_matches sample_reopened := by
  have hre : setSong 0 sample_scanned = Except.ok sample_reopened := rfl
  refine ⟨rfl, by decide, by decide, by decide, by decide, by decide, by decide, by decide,
    hre, by decide, by decide, setSong_matches 0 _ _ hre⟩

/-! ## Persisted state -/

/-- `initPlayerStateFromEEPROM` on a store without the marker. -/
theorem init_first_boot (s : Song) (h : s.eeprom EEPROM_FIRSTRUN ≠ EEPROM_INIT_ID) :
    (initPlayerStateFromEEPROM s).eeprom EEPROM_FIRSTRUN = EEPROM_INIT_ID ∧
    (initPlayerStateFromEEPROM s).eeprom EEPROM_VOLUME = mp3_vol ∧
    (initPlayerStateFromEEPROM s).eeprom EEPROM_TRACK = 0 ∧
    (initPlayerStateFromEEPROM s).eeprom EEPROM_STATE = DIR_PLAY ∧
    (initPlayerStateFromEEPROM s).eeprom EEPROM_POSITION = 0 ∧
    (∀ a, 4 < a → (initPlayerStateFromEEPROM s).eeprom a = s.eeprom a) ∧
    (initPlayerStateFromEEPROM s).mp3Volume = (mp3_vol : Nat) ∧
    (initPlayerStateFromEEPROM s).current_song = 0 ∧
    (initPlayerStateFromEEPROM s).current_state = DIR_PLAY ∧
    (initPlayerStateFromEEPROM s).currPosition = 0 := by
  have h1 : ¬ EEPROM_read s.eeprom EEPROM_FIRSTRUN = EEPROM_INIT_ID := h
  simp only [initPlayerStateFromEEPROM, h1, if_false]
  refine ⟨by simp [EEPROM_write, EEPROM_FIRSTRUN, EEPROM_VOLUME, EEPROM_TRACK, EEPROM_STATE,
      EEPROM_POSITION, EEPROM_INIT_ID],
    by simp [EEPROM_write, EEPROM_VOLUME, EEPROM_TRACK, EEPROM_STATE, EEPROM_POSITION, mp3_vol],
    by simp [EEPROM_write, EEPROM_TRACK, EEPROM_STATE, EEPROM_POSITION],
    by simp [EEPROM_write, EEPROM_STATE, EEPROM_POSITION, DIR_PLAY],
    by simp [EEPROM_write], fun a ha => ?_, by simp⟩
  have c0 : a ≠ EEPROM_FIRSTRUN := by simp only [EEPROM_FIRSTRUN]; omega
  have c1 : a ≠ EEPROM_VOLUME := by simp only [EEPROM_VOLUME]; omega
  have c2 : a ≠ EEPROM_TRACK := by simp only [EEPROM_TRACK]; omega
  have c3 : a ≠ EEPROM_STATE := by simp only [EEPROM_STATE]; omega
  have c4 : a ≠ EEPROM_POSITION := by simp only [EEPROM_POSITION]; omega
  simp only [EEPROM_write, c0, c1, c2, c3, c4, if_false]

/-- `initPlayerStateFromEEPROM` on a store that holds the marker. -/
theorem init_marked (s : Song) (h : s.eeprom EEPROM_FIRSTRUN = EEPROM_INIT_ID) :
    initPlayerStateFromEEPROM s =
      { s with
        mp3Volume := (s.eeprom EEPROM_VOLUME : Nat),
        current_song := s.eeprom EEPROM_TRACK,
        current_state := s.eeprom EEPROM_STATE } := by
  simp only [initPlayerStateFromEEPROM, EEPROM_read, h, if_true]

/-- C11: `initPlayerStateFromEEPROM` on every byte store: without the marker 33 at
address 0 it writes the marker and the defaults (volume 175, track 0, state DIR_PLAY,
position 0) at addresses 0..4, leaves every other byte, and sets the in-memory fields
to those defaults; with the marker it leaves the store unchanged and sets volume,
track and state to the stored bytes; a second load right after a load returns the same
state as the first. -/
theorem initPlayerStateFromEEPROM_spec (s : Song) :
    (s.eeprom EEPROM_FIRSTRUN ≠ EEPROM_INIT_ID →
      (initPlayerStateFromEEPROM s).eeprom EEPROM_FIRSTRUN = EEPROM_INIT_ID ∧
      (initPlayerStateFromEEPROM s).eeprom EEPROM_VOLUME = mp3_vol ∧
      (initPlayerStateFromEEPROM s).eeprom EEPROM_TRACK = 0 ∧
      (initPlayerStateFromEEPROM s).eeprom EEPROM_STATE = DIR_PLAY ∧
      (initPlayerStateFromEEPROM s).eeprom EEPROM_POSITION = 0 ∧
      (∀ a, 4 < a → (initPlayerStateFromEEPROM s).eeprom a = s.eeprom a) ∧
      (initPlayerStateFromEEPROM s).mp3Volume = (mp3_vol : Nat) ∧
      (initPlayerStateFromEEPROM s).current_song = 0 ∧
      (initPlayerStateFromEEPROM s).current_state = DIR_PLAY ∧
      (initPlayerStateFromEEPROM s).currPosition = 0) ∧
    (s.eeprom EEPROM_FIRSTRUN = EEPROM_INIT_ID →
      (initPlayerStateFromEEPROM s).eeprom = s.eeprom ∧
      (initPlayerStateFromEEPROM s).mp3Volume = (s.eeprom EEPROM_VOLUME : Nat) ∧
      (initPlayerStateFromEEPROM s).current_song = s.eeprom EEPROM_TRACK ∧
      (initPlayerStateFromEEPROM s).current_state = s.eeprom EEPROM_STATE) ∧
    initPlayerStateFromEEPROM (initPlayerStateFromEEPROM s) = initPlayerStateFromEEPROM s := by
  refine ⟨init_first_boot s, fun h => ?_, ?_⟩
  · rw [init_marked s h]
    exact ⟨rfl, rfl, rfl, rfl⟩
  · by_cases h : s.eeprom EEPROM_FIRSTRUN = EEPROM_INIT_ID
    · rw [init_marked s h]
      exact init_marked _ h
    · obtain ⟨p0, p1, p2, p3, _, _, q1, q2, q3, _⟩ := init_first_boot s h
      rw [init_marked _ p0]
      generalize initPlayerStateFromEEPROM s = t at p0 p1 p2 p3 q1 q2 q3
      cases t
      simp only at p1 p2 p3 q1 q2 q3
      simp only [p1, p2, p3, q1, q2, q3]

/-- Witness of C11 on an erased store (first boot). -/
theorem initPlayerStateFromEEPROM_spec_witness :
    (initPlayerStateFromEEPROM sample_boot).eeprom EEPROM_FIRSTRUN = EEPROM_INIT_ID ∧
    initPlayerStateFromEEPROM (initPlayerStateFromEEPROM sample_boot) =
      initPlayerStateFromEEPROM sample_boot :=
  ⟨((initPlayerStateFromEEPROM_spec sample_boot).1 (by decide)).1,
    (initPlayerStateFromEEPROM_spec sample_boot).2.2⟩

/-! ## The feed -/

/-- The feed divides by the file size: on a track of size 0 it is undefined. -/
theorem mp3_play_zero_size (s : Song) (h : getFileSize s = 0) :
    mp3_play s = Except.error Fault.division_by_zero := by
  have h1 : s.sd_file.fileSize_ = 0 := h
  have h2 : (s.sd_file.read read_buffer).2.fileSize_ = 0 := by
    unfold SdFile.read
    split <;> simp [h1]
  simp only [mp3_play, getFileSize, SdFile.fileSize, h2, if_true]

/-- On a track of non-zero size the feed completes: it plays the chunk read, keeps
the catalog, the track index, the byte store and `last_state`, and on a short read
closes the session and sets the state to IDLE, otherwise keeps the state. -/
theorem mp3_play_ok (s : Song) (h : getFileSize s ≠ 0) :
    ∃ s1, mp3_play s = Except.ok s1 ∧
      s1.Mp3_played = s.Mp3_played ++ [(s.sd_file.read read_buffer).1] ∧
      s1.bytesPlayed = (s.bytesPlayed + (s.sd_file.read read_buffer).1) % 2 ^ 32 ∧
      s1.current_song = s.current_song ∧ s1.num_songs = s.num_songs ∧
      s1.eeprom = s.eeprom ∧ s1.repeat_ = s.repeat_ ∧ s1.last_state = s.last_state ∧
      s1.card = s.card ∧ s1.fn = s.fn ∧
      ((s.sd_file.read read_buffer).1 < read_buffer →
        s1.current_state = IDLE ∧ s1.sd_file = SdFile.closed) ∧
      (¬ (s.sd_file.read read_buffer).1 < read_buffer →
        s1.current_state = s.current_state ∧ s1.sd_file = (s.sd_file.read read_buffer).2) := by
  have h1 : s.sd_file.fileSize_ ≠ 0 := h
  have h2 : (s.sd_file.read read_buffer).2.fileSize_ ≠ 0 := by
    unfold SdFile.read
    split <;> simp [h1]
  simp only [mp3_play, getFileSize, SdFile.fileSize, h2, if_false]
  by_cases hshort : (s.sd_file.read read_buffer).1 < read_buffer
  · simp only [hshort, if_true]
    refine ⟨_, rfl, ?_⟩
    split <;> simp [Song.emit, SdFile.close]
  · simp only [hshort, if_false]
    refine ⟨_, rfl, ?_⟩
    split <;> simp [Song.emit]

/-- C13: on a track of size 0 (an empty file, or a handle that failed to open) the
feed does not complete: the percent computation of line 198 divides by
`getFileSize() = 0`, from `loop()` in DIR_PLAY (with a track selected) and in MP3_PLAY
alike, so no end-of-track is reported and no state is reached. -/
theorem feed_divides_by_zero (s : Song) (h : getFileSize s = 0) :
    mp3_play s = Except.error Fault.division_by_zero ∧
    (s.current_state = MP3_PLAY → loop s = Except.error Fault.division_by_zero) ∧
    (s.current_state = DIR_PLAY → s.current_song < s.num_songs →
      loop s = Except.error Fault.division_by_zero) := by
  have hm := mp3_play_zero_size s h
  refine ⟨hm, fun hs => ?_, fun hs hc => ?_⟩
  · simp [loop, hs, hm, MP3_PLAY, DIR_PLAY]
  · simp [loop, hs, dir_play, hc, hm]

/-- Witness of C13: the empty file `A.MP3` open in DIR_PLAY, and the handle left by a
failed open. -/
theorem feed_divides_by_zero_witness :
    getFileSize empty_track_song = 0 ∧
    empty_track_song.sd_file.isOpen = true ∧
    empty_track_song.current_state = DIR_PLAY ∧
    empty_track_song.current_song < empty_track_song.num_songs ∧
    (SdFile.open sample_card [0x58]).fileSize = 0 ∧
    loop empty_track_song = Except.error Fault.division_by_zero :=
  ⟨by decide, by decide, by decide, by decide, by decide,
    (feed_divides_by_zero empty_track_song (by decide)).2.2 (by decide) (by decide)⟩

/-- Without a wrap of the 32-bit product the feed derives the exact percent: on an
open track of non-zero size with `fileSize * 100 < 2^32`, whose byte count is the
read cursor, the position after the feed is `floor(bytesPlayed * 100 / fileSize)` when
that is above the previous position, with one notification, and the previous position
without a notification otherwise. -/
theorem mp3_play_percent (s : Song) (hopen : s.sd_file.isOpen = true)
    (hsize : s.sd_file.fileSize_ ≠ 0) (hfit : s.sd_file.fileSize_ * 100 < 2 ^ 32)
    (hcur : s.bytesPlayed = s.sd_file.curPosition_)
    (hin : s.sd_file.curPosition_ ≤ s.sd_file.fileSize_) :
    ∃ s1, mp3_play s = Except.ok s1 ∧
      s1.bytesPlayed = s.bytesPlayed + (s.sd_file.read read_buffer).1 ∧
      (s.currPosition <
          (((s.bytesPlayed + (s.sd_file.read read_buffer).1) * 100 / getFileSize s : Nat) : Int) →
        s1.currPosition =
          (((s.bytesPlayed + (s.sd_file.read read_buffer).1) * 100 / getFileSize s : Nat) : Int) ∧
        s1.out = s.out ++ seek_frame
          (((s.bytesPlayed + (s.sd_file.read read_buffer).1) * 100 / getFileSize s : Nat) : Int)) ∧
      (¬ s.currPosition <
          (((s.bytesPlayed + (s.sd_file.read read_buffer).1) * 100 / getFileSize s : Nat) : Int) →
        s1.currPosition = s.currPosition ∧ s1.out = s.out) := by
  have hr1 : (s.sd_file.read read_buffer).1 =
      min 256 (s.sd_file.fileSize_ - s.sd_file.curPosition_) := by
    simp [SdFile.read, hopen, read_buffer]
  have hr2 : (s.sd_file.read read_buffer).2.fileSize_ = s.sd_file.fileSize_ := by
    simp [SdFile.read, hopen]
  have hle : s.bytesPlayed + (s.sd_file.read read_buffer).1 ≤ s.sd_file.fileSize_ := by
    rw [hr1, hcur]; omega
  have hb : (s.bytesPlayed + (s.sd_file.read read_buffer).1) % 2 ^ 32 =
      s.bytesPlayed + (s.sd_file.read read_buffer).1 :=
    Nat.mod_eq_of_lt (by omega)
  have hp : (s.bytesPlayed + (s.sd_file.read read_buffer).1) * 100 % 2 ^ 32 =
      (s.bytesPlayed + (s.sd_file.read read_buffer).1) * 100 :=
    Nat.mod_eq_of_lt (by omega)
  have hq : (s.bytesPlayed + (s.sd_file.read read_buffer).1) * 100 / s.sd_file.fileSize_
      ≤ 100 := by
    apply Nat.div_le_of_le_mul
    calc (s.bytesPlayed + (s.sd_file.read read_buffer).1) * 100
        ≤ s.sd_file.fileSize_ * 100 := Nat.mul_le_mul_right _ hle
      _ = s.sd_file.fileSize_ * 100 := rfl
  have ht : toInt16
      ((s.bytesPlayed + (s.sd_file.read read_buffer).1) * 100 / s.sd_file.fileSize_) =
      (((s.bytesPlayed + (s.sd_file.read read_buffer).1) * 100 / s.sd_file.fileSize_ : Nat)
        : Int) := by
    unfold toInt16
    generalize (s.bytesPlayed + (s.sd_file.read read_buffer).1) * 100 / s.sd_file.fileSize_
      = q at hq
    split <;> omega
  simp only [mp3_play, getFileSize, SdFile.fileSize, hr2, hsize, if_false, hb, hp, ht]
  generalize (s.bytesPlayed + (s.sd_file.read read_buffer).1) * 100 / s.sd_file.fileSize_
    = Q
  by_cases hgt : s.currPosition < (Q : Int)
  · have hgt2 : (Q : Int) > s.currPosition := hgt
    simp only [hgt2, if_true]
    split
    · exact ⟨_, rfl, rfl, fun _ => ⟨rfl, rfl⟩, fun h => absurd trivial h⟩
    · exact ⟨_, rfl, rfl, fun _ => ⟨rfl, rfl⟩, fun h => absurd trivial h⟩
  · have hgt2 : ¬ (Q : Int) > s.currPosition := hgt
    simp only [hgt2, if_false]
    split
    · exact ⟨_, rfl, rfl, fun h => h.elim, fun _ => ⟨rfl, rfl⟩⟩
    · exact ⟨_, rfl, rfl, fun h => h.elim, fun _ => ⟨rfl, rfl⟩⟩

/-- A feed whose derived percent is not above the position notifies nothing: on a
track of non-zero size it completes, keeps position and handler calls, and advances
the byte count by the bytes read. -/
theorem mp3_play_quiet (s : Song) (h : getFileSize s ≠ 0)
    (hq : ¬ toInt16 (((s.bytesPlayed + (s.sd_file.read read_buffer).1) % 2 ^ 32 * 100) % 2 ^ 32
      / getFileSize s) > s.currPosition) :
    ∃ s1, mp3_play s = Except.ok s1 ∧ s1.currPosition = s.currPosition ∧ s1.out = s.out ∧
      s1.bytesPlayed = (s.bytesPlayed + (s.sd_file.read read_buffer).1) % 2 ^ 32 ∧
      s1.sd_file = (if (s.sd_file.read read_buffer).1 < read_buffer then SdFile.closed
        else (s.sd_file.read read_buffer).2) := by
  have h1 : s.sd_file.fileSize_ ≠ 0 := h
  have h2 : (s.sd_file.read read_buffer).2.fileSize_ = s.sd_file.fileSize_ := by
    unfold SdFile.read
    split <;> rfl
  have hq2 : ¬ toInt16 (((s.bytesPlayed + (s.sd_file.read read_buffer).1) % 2 ^ 32 * 100)
      % 2 ^ 32 / s.sd_file.fileSize_) > s.currPosition := hq
  simp only [mp3_play, getFileSize, SdFile.fileSize, h2, h1, if_false, hq2]
  split
  · exact ⟨_, rfl, rfl, rfl, rfl, rfl⟩
  · exact ⟨_, rfl, rfl, rfl, rfl, rfl⟩

/-- The percent derived from a wrapped 32-bit product over 43,000,000 bytes is at
most 99. -/
theorem wrapped_percent_le (x : Nat) : ¬ toInt16 (x % 2 ^ 32 / 43000000) > 99 := by
  have hx : x % 2 ^ 32 < 4294967296 := Nat.mod_lt _ (by norm_num)
  have hq : x % 2 ^ 32 / 43000000 ≤ 99 := by omega
  unfold toInt16
  generalize x % 2 ^ 32 / 43000000 = q at hq
  split <;> omega

/-- A full chunk inside the 43,000,000-byte track at position 99: the cursor and the
byte count advance by 256 and nothing is notified. -/
theorem big_track_feed (s : Song) (c : Nat) (h : in_big_track s c)
    (hroom : c + 256 < 43000000) :
    ∃ s1, mp3_play s = Except.ok s1 ∧ in_big_track s1 (c + 256) ∧ s1.out = s.out := by
  obtain ⟨h1, h2, h3, h4, h5⟩ := h
  have hr1 : (s.sd_file.read read_buffer).1 = 256 := by
    simp only [SdFile.read, h1, if_true, read_buffer, h2, h3]
    omega
  have hr2 : (s.sd_file.read read_buffer).2 =
      { s.sd_file with curPosition_ := c + 256 } := by
    simp only [SdFile.read, h1, if_true, read_buffer, h2, h3]
    have : min 256 (43000000 - c) = 256 := by omega
    rw [this]
  have hsz : getFileSize s = 43000000 := h2
  obtain ⟨s1, g1, g2, g3, g4, g5⟩ := mp3_play_quiet s (by rw [hsz]; norm_num)
    (by rw [hsz, h5]; exact wrapped_percent_le _)
  refine ⟨s1, g1, ⟨?_, ?_, ?_, ?_, g2.trans h5⟩, g3⟩
  · rw [g5, hr1, hr2]; simp [read_buffer, h1]
  · rw [g5, hr1, hr2]; simp [read_buffer, h2]
  · rw [g5, hr1, hr2]; simp [read_buffer]
  · rw [g4, hr1, h4]; omega

/-- `k` full chunks inside the 43,000,000-byte track at position 99. -/
theorem big_track_feeds : ∀ (k : Nat) (s : Song) (c : Nat), in_big_track s c →
    c + 256 * k < 43000000 →
    ∃ s1, feeds k s = Except.ok s1 ∧ in_big_track s1 (c + 256 * k) ∧ s1.out = s.out := by
  intro k
  induction k with
  | zero => intro s c h _; exact ⟨s, rfl, by simpa using h, rfl⟩
  | succ k ih =>
    intro s c h hroom
    obtain ⟨s1, g1, g2, g3⟩ := big_track_feed s c h (by omega)
    obtain ⟨s2, f1, f2, f3⟩ := ih s1 (c + 256) g2 (by omega)
    refine ⟨s2, ?_, ?_, f3.trans g3⟩
    · simp only [feeds, g1, f1]
    · have e : c + 256 * (k + 1) = c + 256 + 256 * k := by omega
      rw [e]; exact f2

/-- C12, evaluated on a track of 43,000,000 bytes: after `seek(99)` and 1679 full
chunks the feed stands 176 bytes before the end with position 99; the next feed
brings `bytesPlayed` to 43,000,000, whose exact percent is 100, but the 32-bit product
`bytesPlayed * 100` has wrapped and the derived percent is 0, so the position stays 99
and no notification is made. -/
theorem feed_percent_wraps :
    ∃ s1 s2,
      feeds 1679 (seek 99 big_song).2 = Except.ok s1 ∧
      s1.sd_file.isOpen = true ∧ getFileSize s1 = 43000000 ∧
      s1.bytesPlayed = 42999824 ∧ s1.currPosition = 99 ∧
      mp3_play s1 = Except.ok s2 ∧
      s2.bytesPlayed = 43000000 ∧
      s2.bytesPlayed * 100 / getFileSize s1 = 100 ∧
      (s2.bytesPlayed * 100) % 2 ^ 32 / getFileSize s1 = 0 ∧
      s2.currPosition = 99 ∧ s2.out = s1.out := by
  have h0 : in_big_track (seek 99 big_song).2 42570000 := by
    refine ⟨by decide, by decide, by decide, by decide, by decide⟩
  obtain ⟨s1, f1, ⟨a1, a2, a3, a4, a5⟩, _⟩ :=
    big_track_feeds 1679 (seek 99 big_song).2 42570000 h0 (by norm_num)
  have a4n : s1.bytesPlayed = 42999824 := by rw [a4]
  have a3n : s1.sd_file.curPosition_ = 42999824 := by rw [a3]
  have hsz : getFileSize s1 = 43000000 := a2
  have hr1 : (s1.sd_file.read read_buffer).1 = 176 := by
    simp only [SdFile.read, a1, if_true, read_buffer, a2, a3n]
    rfl
  obtain ⟨s2, g1, g2, g3, g4, _⟩ := mp3_play_quiet s1 (by rw [hsz]; norm_num)
    (by rw [hsz, a5]; exact wrapped_percent_le _)
  have hb : s2.bytesPlayed = 43000000 := by rw [g4, hr1, a4n]; norm_num
  refine ⟨s1, s2, f1, a1, hsz, a4n, a5, g1, hb, ?_, ?_, g2.trans a5, g3⟩
  · rw [hb, hsz]
  · rw [hb, hsz]; norm_num

/-! ## The persisted position -/

/-- C14, evaluated on the sample catalog: after `seek(50)` committed position 50, a
successful `nextFile()` opens track 1, resets the in-memory position to 0 and leaves
the persisted position byte at 50, so the persisted position differs from the position
of the session just opened. The same from a first boot: after `setup()`, `seek(50)`
and `nextFile()` the store holds track 1 and position 50, and the `setup()` of the next
power cycle reads them back and seeks track 1 to 50 percent (250 of the 500 bytes of
`B.WAV`), although track 1 stood at position 0 when the power went. -/
theorem open_leaves_persisted_position :
    sample_seeked.eeprom EEPROM_POSITION = 50 ∧
    nextFile sample_seeked = Except.ok (true, sample_advanced) ∧
    sample_advanced.current_song = 1 ∧
    sample_advanced.currPosition = 0 ∧
    sample_advanced.eeprom EEPROM_POSITION = 50 ∧
    (sample_advanced.eeprom EEPROM_POSITION : Int) ≠ sample_advanced.currPosition ∧
    setup (fun _ => 539) sample_boot = Except.ok sample_first_boot ∧
    nextFile (seek 50 sample_first_boot).2 = Except.ok (true, sample_track_changed) ∧
    sample_track_changed.current_song = 1 ∧
    sample_track_changed.currPosition = 0 ∧
    sample_track_changed.bytesPlayed = 0 ∧
    sample_track_changed.eeprom EEPROM_TRACK = 1 ∧
    sample_track_changed.eeprom EEPROM_POSITION = 50 ∧
    setup (fun _ => 539) { sample_boot with eeprom := sample_track_changed.eeprom } =
      Except.ok sample_rebooted ∧
    sample_rebooted.current_song = 1 ∧
    sample_rebooted.currPosition = 50 ∧
    sample_rebooted.bytesPlayed = 250 := by
  refine ⟨by decide, rfl, by decide, by decide, by decide, by decide, rfl, rfl, by decide,
    by decide, by decide, by decide, by decide, rfl, by decide, by decide, by decide⟩

/-- What the opens do with the position: after a completed `setSong(i)`, a successful
`nextFile()` or a successful `prevFile()` the in-memory position is 0 and the persisted
position byte is what it was before the call; none of them writes it. -/
theorem open_keeps_persisted_position (s : Song) :
    (∀ i s1, setSong i s = Except.ok s1 →
      s1.currPosition = 0 ∧ s1.eeprom EEPROM_POSITION = s.eeprom EEPROM_POSITION) ∧
    (∀ s1, nextFile s = Except.ok (true, s1) →
      s1.currPosition = 0 ∧ s1.eeprom EEPROM_POSITION = s.eeprom EEPROM_POSITION) ∧
    (∀ s1, prevFile s = Except.ok (true, s1) →
      s1.currPosition = 0 ∧ s1.eeprom EEPROM_POSITION = s.eeprom EEPROM_POSITION) := by
  have key : ∀ (t t1 : Song), sd_file_open t = Except.ok t1 → t.eeprom = s.eeprom →
      ({ t1 with eeprom := EEPROM_write t1.eeprom EEPROM_TRACK t1.current_song } : Song).currPosition
        = 0 ∧
      ({ t1 with eeprom := EEPROM_write t1.eeprom EEPROM_TRACK t1.current_song } : Song).eeprom
        EEPROM_POSITION = s.eeprom EEPROM_POSITION := by
    intro t t1 h he
    obtain ⟨_, _, p3, p4, _⟩ := sd_file_open_post t t1 h
    refine ⟨p4, ?_⟩
    simp [EEPROM_write, EEPROM_POSITION, EEPROM_TRACK, p3, he]
  refine ⟨fun i s1 h => ?_, fun s1 h => ?_, fun s1 h => ?_⟩
  · unfold setSong at h
    split at h
    · cases h
    · rename_i s2 hs2
      injection h with h
      subst h
      exact key _ s2 hs2 rfl
  · unfold nextFile at h
    split at h
    · injection h with h; injection h with h _; cases h
    · split at h
      · cases h
      · split at h
        · cases h
        · rename_i s2 hs2
          injection h with h; injection h with _ h
          subst h
          exact key _ s2 hs2 rfl
  · unfold prevFile at h
    split at h
    · injection h with h; injection h with h _; cases h
    · split at h
      · cases h
      · rename_i s2 hs2
        injection h with h; injection h with _ h
        subst h
        exact key _ s2 hs2 rfl

/-! ## Volume -/

/-- A truncation is determined by integer bounds on a non-negative real. -/
theorem truncates_eq (x : ℝ) (n m : Int) (h : truncates x n) (h0 : 0 ≤ x)
    (hm : (m : ℝ) ≤ x) (hm1 : x < (m : ℝ) + 1) : n = m := by
  obtain ⟨hn, hn1⟩ := h.1 h0
  have a : (n : ℝ) < (m : ℝ) + 1 := lt_of_le_of_lt hn hm1
  have b : (m : ℝ) < (n : ℝ) + 1 := lt_of_le_of_lt hm hn1
  have a1 : n < m + 1 := by exact_mod_cast a
  have b1 : m < n + 1 := by exact_mod_cast b
  omega

/-- Over the reals, `2.7182818 ^ (1 / 100) * 93.8` lies between 94 and 95. -/
theorem level_one_bounds :
    (94 : ℝ) ≤ (2.7182818 : ℝ) ^ (((1 : Int) : ℝ) / 100) * 93.8 ∧
    (2.7182818 : ℝ) ^ (((1 : Int) : ℝ) / 100) * 93.8 < 95 := by
  have hr0 : (0 : ℝ) ≤ (2.7182818 : ℝ) ^ (((1 : Int) : ℝ) / 100) :=
    Real.rpow_nonneg (by norm_num) _
  have hpow : ((2.7182818 : ℝ) ^ (((1 : Int) : ℝ) / 100)) ^ 100 = 2.7182818 := by
    rw [← Real.rpow_natCast, ← Real.rpow_mul (by norm_num)]
    norm_num
  generalize (2.7182818 : ℝ) ^ (((1 : Int) : ℝ) / 100) = r at hr0 hpow
  constructor
  · by_contra hlt
    push_neg at hlt
    have h1 : r < 94 / 93.8 := by
      rw [lt_div_iff₀ (by norm_num)]; exact hlt
    have h2 : r ^ 100 < (94 / 93.8 : ℝ) ^ 100 := pow_lt_pow_left₀ h1 hr0 (by norm_num)
    rw [hpow] at h2
    norm_num at h2
  · by_contra hge
    push_neg at hge
    have h1 : (95 / 93.8 : ℝ) ≤ r := by
      rw [div_le_iff₀ (by norm_num)]; exact hge
    have h2 : (95 / 93.8 : ℝ) ^ 100 ≤ r ^ 100 := pow_le_pow_left₀ (by norm_num) h1 100
    rw [hpow] at h2
    norm_num at h2

/-- Over the reals, `ln(94 / 93.8) * 100` lies between 0 and 1. -/
theorem percent_of_94_bounds :
    (0 : ℝ) ≤ Real.log ((((94 : Int) : ℝ)) / 93.8) * 100 ∧
    Real.log ((((94 : Int) : ℝ)) / 93.8) * 100 < 1 := by
  have hx : (1 : ℝ) ≤ ((94 : Int) : ℝ) / 93.8 := by norm_num
  have hpos : (0 : ℝ) < ((94 : Int) : ℝ) / 93.8 := by norm_num
  have h1 : (0 : ℝ) ≤ Real.log (((94 : Int) : ℝ) / 93.8) := Real.log_nonneg hx
  have h2 : Real.log (((94 : Int) : ℝ) / 93.8) ≤ ((94 : Int) : ℝ) / 93.8 - 1 :=
    Real.log_le_sub_one_of_pos hpos
  have h3 : ((94 : Int) : ℝ) / 93.8 - 1 < 1 / 100 := by norm_num
  constructor
  · positivity
  · linarith

/-- C15, evaluated at percent 1 over real arithmetic: whenever the level stored by
`setVolume(1)` is `2.7182818 ^ (1/100) * 93.8` truncated and the value returned by
`getVolume()` is `ln(level / 93.8) * 100` truncated, `setVolume(1)` stores level 94 and
`getVolume()` then returns 0, not 1. -/
theorem volume_round_trip_at_one (level percent_of : Int → Int) (s : Song)
    (hl : level_at level 1) (hp : percent_at percent_of (level 1)) :
    (setVolume level 1 s).1 = 94 ∧
    (setVolume level 1 s).2.eeprom EEPROM_VOLUME = 1 ∧
    getVolume percent_of (setVolume level 1 s).2 = 0 ∧
    getVolume percent_of (setVolume level 1 s).2 ≠ 1 := by
  have hb := level_one_bounds
  have hlev : level 1 = 94 :=
    truncates_eq _ (level 1) 94 hl (by linarith [hb.1]) (by exact_mod_cast hb.1)
      (by have := hb.2; norm_num at this ⊢; linarith)
  rw [hlev] at hp
  have hq := percent_of_94_bounds
  have hper : percent_of 94 = 0 :=
    truncates_eq _ (percent_of 94) 0 hp hq.1 (by exact_mod_cast hq.1)
      (by have := hq.2; norm_num at this ⊢; linarith)
  refine ⟨hlev, by simp [setVolume, EEPROM_write], ?_, ?_⟩
  · simp only [getVolume, setVolume, hlev, hper]
  · simp only [getVolume, setVolume, hlev, hper]
    decide

/-- Witness of C15: the level function with value 94 and the inverse with value 0
are the truncations at percent 1. -/
theorem volume_round_trip_at_one_witness :
    level_at (fun _ => 94) 1 ∧ percent_at (fun _ => 0) ((fun _ => 94) (1 : Int)) ∧
    ((setVolume (fun _ => 94) 1 sample_song).1 = 94 ∧
     (setVolume (fun _ => 94) 1 sample_song).2.eeprom EEPROM_VOLUME = 1 ∧
     getVolume (fun _ => 0) (setVolume (fun _ => 94) 1 sample_song).2 = 0 ∧
     getVolume (fun _ => 0) (setVolume (fun _ => 94) 1 sample_song).2 ≠ 1) := by
  have hb := level_one_bounds
  have hq := percent_of_94_bounds
  have h1 : level_at (fun _ => 94) 1 := by
    refine ⟨fun _ => ⟨?_, ?_⟩, fun hneg => ?_⟩
    · show (((94 : Int) : ℝ)) ≤ _
      exact_mod_cast hb.1
    · show _ < (((94 : Int) : ℝ)) + 1
      have := hb.2
      norm_num at this ⊢
      linarith
    · exfalso
      linarith [hb.1]
  have h2 : percent_at (fun _ => 0) ((fun _ => 94) (1 : Int)) := by
    refine ⟨fun _ => ⟨?_, ?_⟩, fun hneg => ?_⟩
    · show (((0 : Int) : ℝ)) ≤ Real.log ((((94 : Int) : ℝ)) / 93.8) * 100
      exact_mod_cast hq.1
    · show Real.log ((((94 : Int) : ℝ)) / 93.8) * 100 < (((0 : Int) : ℝ)) + 1
      have := hq.2
      norm_num at this ⊢
      linarith
    · exfalso
      have : Real.log ((((94 : Int) : ℝ)) / 93.8) * 100 < 0 := hneg
      linarith [hq.1]
  exact ⟨h1, h2, volume_round_trip_at_one (fun _ => 94) (fun _ => 0) sample_song h1 h2⟩

/-! ## Storage layout -/

/-- The scan over any listing, entered with `num_songs <= 30`: it completes, never
exceeds 30 entries, writes only inside the entries it adds, and every entry it adds is
terminated. -/
theorem scan_loop_frame : ∀ (l : List dir_t) (s : Song), s.num_songs ≤ max_num_songs →
    ∃ s1, scan_loop l s = Except.ok s1 ∧ s.num_songs ≤ s1.num_songs ∧
      s1.num_songs ≤ max_num_songs ∧
      (∀ a, a < FILE_NAMES_START + s.num_songs * max_name_len ∨
          FILE_NAMES_START + max_num_songs * max_name_len ≤ a → s1.eeprom a = s.eeprom a) ∧
      (∀ i, s.num_songs ≤ i → i < s1.num_songs → entry_terminated s1.eeprom i) := by
  intro l
  induction l with
  | nil =>
    intro s hn
    exact ⟨s, rfl, le_refl _, hn, fun _ _ => rfl, fun i h1 h2 => by omega⟩
  | cons p rest ih =>
    intro s hn
    by_cases hfull : s.num_songs < max_num_songs
    · by_cases hp : p.at 0 = DIR_NAME_FREE
      · refine ⟨s, ?_, le_refl _, hn, fun _ _ => rfl, fun i h1 h2 => by omega⟩
        simp only [scan_loop, hfull, not_true_eq_false, if_false, hp, if_true]
      · by_cases hskip : p.at 0 = DIR_NAME_DELETED ∨ p.at 0 = 0x2E ∨ DIR_IS_FILE p = false
        · obtain ⟨s1, h1, h2, h3, h4, h5⟩ := ih s hn
          refine ⟨s1, ?_, h2, h3, h4, h5⟩
          simp only [scan_loop, hfull, not_true_eq_false, if_false, hp, hskip, if_true]
          exact h1
        · by_cases haud : is_audio p = true
          · obtain ⟨s0, g1, g2, g3, _, _, _⟩ := scan_accept_spec p s
            obtain ⟨s1, h1, h2, h3, h4, h5⟩ := ih s0 (by rw [g2]; exact hfull)
            have hst := store_name_spec s.eeprom s.num_songs p
            have hlen := stored_name_length p
            have hfull2 : s.num_songs < 30 := hfull
            refine ⟨s1, ?_, by omega, h3, fun a ha => ?_, fun i hi1 hi2 => ?_⟩
            · simp only [scan_loop, hfull, not_true_eq_false, if_false, hp, hskip, haud,
                if_true, g1]
              exact h1
            · rw [h4 a (by
                rw [g2]
                simp only [FILE_NAMES_START, max_name_len, max_num_songs] at ha ⊢
                omega), g3]
              apply hst.2
              simp only [FILE_NAMES_START, max_name_len, max_num_songs] at ha ⊢
              omega
            · by_cases hin : i = s.num_songs
              · subst hin
                obtain ⟨k, hk1, hk2⟩ := holds_name_terminated _ _ p hst.1
                refine ⟨k, hk1, ?_⟩
                rw [h4 _ (by
                  rw [g2]
                  simp only [FILE_NAMES_START, max_name_len, max_num_songs]
                  omega), g3]
                exact hk2
              · exact h5 i (by rw [g2]; omega) hi2
          · obtain ⟨s1, h1, h2, h3, h4, h5⟩ := ih s hn
            refine ⟨s1, ?_, h2, h3, h4, h5⟩
            simp only [scan_loop, hfull, not_true_eq_false, if_false, hp, hskip, haud]
            exact h1
    · refine ⟨s, ?_, le_refl _, hn, fun _ _ => rfl, fun i h1 h2 => by omega⟩
      simp only [scan_loop, hfull, not_false_eq_true, if_true]

/-- `sd_dir_setup` on any listing: it completes with at most 30 entries, each of them
terminated, keeps the track index and changes no byte outside the 30 catalog
slots. -/
theorem sd_dir_setup_frame (s : Song) :
    ∃ s1, sd_dir_setup s = Except.ok s1 ∧ s1.num_songs ≤ max_num_songs ∧
      s1.current_song = s.current_song ∧
      (∀ a, a < FILE_NAMES_START ∨ FILE_NAMES_START + max_num_songs * max_name_len ≤ a →
        s1.eeprom a = s.eeprom a) ∧
      (∀ i, i < s1.num_songs → entry_terminated s1.eeprom i) := by
  obtain ⟨s2, h1, _, h3, h4, h5⟩ := scan_loop_frame s.card.root
    (({ s with num_songs := 0 }).emit
      [ Out.respondString "\x7b\"command\": \"LIBRARY\",\"songs\":[" ])
    (by simp [Song.emit, max_num_songs])
  simp only [Song.emit, Nat.zero_mul, Nat.add_zero] at h1 h3 h4 h5
  refine ⟨{ (s2.emit [ Out.respondString "]\x7d!" ]) with current_song := s.current_song },
    ?_, h3, rfl, h4, fun i hi => h5 i (Nat.zero_le _) hi⟩
  simp only [sd_dir_setup, Song.emit, h1]

/-- The read loop writes `fn` only at the indices it visits. -/
theorem map_loop_frame (e : Nat → Nat) (base : Nat) :
    ∀ (n i : Nat) (fn : Nat → Nat) (j : Nat), i + n ≤ j →
      (map_loop e base n i fn).1 j = fn j := by
  intro n
  induction n with
  | zero => intro i fn j _; rfl
  | succ k ih =>
    intro i fn j hj
    simp only [map_loop]
    have hne : j ≠ i := by omega
    split
    · exact Function.update_noteq hne _ _
    · rw [ih (i + 1) _ j (by omega)]
      exact Function.update_noteq hne _ _

/-- A completed `map_current_song_to_fn` leaves everything past the 13 bytes of `fn`
alone. -/
theorem map_current_song_to_fn_inside (s s1 : Song)
    (h : map_current_song_to_fn s = Except.ok s1) :
    ∀ j, max_name_len ≤ j → s1.fn j = s.fn j := by
  intro j hj
  have hj13 : 13 ≤ j := hj
  unfold map_current_song_to_fn at h
  simp only at h
  have hfr := map_loop_frame s.eeprom (FILE_NAMES_START + s.current_song * max_name_len)
    max_name_len 0 s.fn j (by omega)
  generalize map_loop s.eeprom (FILE_NAMES_START + s.current_song * max_name_len)
    max_name_len 0 s.fn = r at h hfr
  unfold restore_dot at h
  split at h
  · rename_i fn hfn
    injection h with h
    subst h
    split at hfn
    · split at hfn
      · rename_i h3 h13
        have h13n : r.2 + 1 < 13 := h13
        injection hfn with hfn
        subst hfn
        simp only [Function.update_apply]
        have c1 : j ≠ r.2 - 3 := by omega
        have c2 : j ≠ r.2 - 2 := by omega
        have c3 : j ≠ r.2 - 1 := by omega
        have c4 : j ≠ r.2 := by omega
        have c5 : j ≠ r.2 + 1 := by omega
        simp only [c1, c2, c3, c4, c5, if_false]
        exact hfr
      · cases hfn
    · injection hfn with hfn
      subst hfn
      exact hfr
  · cases h

/-- C20: the catalog layout is safe. Storing a name as entry `i` changes no byte
outside `[32 + 13 i, 32 + 13 i + 12]`, hence none of the scalar bytes at 0..4 and no
byte of another entry; for every directory listing `sd_dir_setup()` completes with at
most 30 entries and changes no byte outside the 30 catalog slots; and for every entry
the scan wrote `map_current_song_to_fn()` completes, that is, stays inside the 13 bytes
of `fn`, and leaves everything after them unchanged. -/
theorem catalog_layout_safe (s : Song) :
    (∀ (e : Nat → Nat) (i : Nat) (p : dir_t) (a : Nat),
      a < FILE_NAMES_START + i * max_name_len ∨ FILE_NAMES_START + i * max_name_len + 12 < a →
      store_name e i p a = e a) ∧
    (∀ (e : Nat → Nat) (i : Nat) (p : dir_t) (a : Nat), a ≤ 4 → store_name e i p a = e a) ∧
    (∀ (e : Nat → Nat) (i j : Nat) (p : dir_t) (k : Nat), i ≠ j → k ≤ 12 →
      store_name e i p (FILE_NAMES_START + j * max_name_len + k) =
        e (FILE_NAMES_START + j * max_name_len + k)) ∧
    ∃ s1, sd_dir_setup s = Except.ok s1 ∧ s1.num_songs ≤ max_num_songs ∧
      (∀ a, a < FILE_NAMES_START ∨ FILE_NAMES_START + max_num_songs * max_name_len ≤ a →
        s1.eeprom a = s.eeprom a) ∧
      ∀ i, i < s1.num_songs →
        ∃ fn, map_current_song_to_fn { s1 with current_song := i } =
            Except.ok { s1 with current_song := i, fn := fn } ∧
          ∀ j, max_name_len ≤ j → fn j = s1.fn j := by
  have slot : ∀ (e : Nat → Nat) (i : Nat) (p : dir_t) (a : Nat),
      a < FILE_NAMES_START + i * max_name_len ∨ FILE_NAMES_START + i * max_name_len + 12 < a →
      store_name e i p a = e a := by
    intro e i p a ha
    have hlen := stored_name_length p
    exact (store_name_spec e i p).2 a (by omega)
  refine ⟨slot, fun e i p a ha => ?_, fun e i j p k hij hk => ?_, ?_⟩
  · exact slot e i p a (Or.inl (by simp only [FILE_NAMES_START]; omega))
  · apply slot
    simp only [FILE_NAMES_START, max_name_len]
    rcases Nat.lt_or_gt_of_ne hij with h | h
    · right; omega
    · left; omega
  · obtain ⟨s1, h1, h2, _, h4, h5⟩ := sd_dir_setup_frame s
    refine ⟨s1, h1, h2, h4, fun i hi => ?_⟩
    obtain ⟨fn, hfn⟩ := map_current_song_to_fn_ok { s1 with current_song := i } (h5 i hi)
    exact ⟨fn, hfn, map_current_song_to_fn_inside _ _ hfn⟩

/-! ## The persisted volume -/

/-- `setup()` completes on every state, and the volume byte it leaves is the low byte
of the value `initPlayerStateFromEEPROM` put in `mp3Volume`, which `setup()` hands to
`setVolume` as a percent (line 330). -/
theorem setup_volume (level : Int → Int) (s : Song) :
    ∃ s2, setup level s = Except.ok s2 ∧
      s2.eeprom EEPROM_VOLUME = ((initPlayerStateFromEEPROM s).mp3Volume % 256).toNat % 256 := by
  obtain ⟨s1, h1, _, _, h4, _⟩ := sd_dir_setup_frame
    (setVolume level (initPlayerStateFromEEPROM s).mp3Volume (initPlayerStateFromEEPROM s)).2
  have hset : setup level s = Except.ok
      (seek ((EEPROM_read s1.eeprom EEPROM_POSITION : Nat) : Int)
        { s1 with currPosition := (EEPROM_read s1.eeprom EEPROM_POSITION : Nat) }).2 := by
    simp only [setup, h1]
  refine ⟨_, hset, ?_⟩
  have hv : s1.eeprom EEPROM_VOLUME =
      ((initPlayerStateFromEEPROM s).mp3Volume % 256).toNat % 256 := by
    rw [h4 EEPROM_VOLUME (Or.inl (by decide))]
    simp [setVolume, EEPROM_write]
  rw [← hv]
  simp only [seek]
  split
  · rfl
  · simp [EEPROM_write, EEPROM_VOLUME, EEPROM_POSITION]

/-- After `setVolume(p)` with `p` in [0,100] the persisted volume byte is `p`. -/
theorem setVolume_persists_percent (level : Int → Int) (p : Int) (s : Song)
    (h0 : 0 ≤ p) (h100 : p ≤ 100) :
    (((setVolume level p s).2.eeprom EEPROM_VOLUME : Nat) : Int) = p := by
  simp only [setVolume, EEPROM_write, if_true]
  omega

/-- C16, evaluated on a first boot: for every byte store without the marker,
`initPlayerStateFromEEPROM` persists the decoder-level default 175 as the volume, and
`setup()` completes with the persisted volume still 175, which is not in [0,100]. -/
theorem first_boot_volume_not_percent (level : Int → Int) (s : Song)
    (h : s.eeprom EEPROM_FIRSTRUN ≠ EEPROM_INIT_ID) :
    (initPlayerStateFromEEPROM s).eeprom EEPROM_VOLUME = 175 ∧
    ∃ s2, setup level s = Except.ok s2 ∧ s2.eeprom EEPROM_VOLUME = 175 ∧
      ¬ s2.eeprom EEPROM_VOLUME ≤ 100 := by
  obtain ⟨_, p1, _, _, _, _, q1, _⟩ := init_first_boot s h
  obtain ⟨s2, h1, h2⟩ := setup_volume level s
  have hv : s2.eeprom EEPROM_VOLUME = 175 := by
    rw [h2, q1]
    decide
  exact ⟨p1, s2, h1, hv, by rw [hv]; decide⟩

/-- Witness of C16: the erased store of the boot state. -/
theorem first_boot_volume_not_percent_witness :
    sample_boot.eeprom EEPROM_FIRSTRUN ≠ EEPROM_INIT_ID ∧
    ((initPlayerStateFromEEPROM sample_boot).eeprom EEPROM_VOLUME = 175 ∧
     ∃ s2, setup (fun _ => 539) sample_boot = Except.ok s2 ∧ s2.eeprom EEPROM_VOLUME = 175 ∧
       ¬ s2.eeprom EEPROM_VOLUME ≤ 100) :=
  ⟨by decide, first_boot_volume_not_percent (fun _ => 539) sample_boot (by decide)⟩

/-! ## The remainder in `nextFile` -/

/-- C19, evaluated on an empty catalog: in the boot state (`num_songs = 0`, `repeat`
true as line 87 initialises it) `nextFileExists()` is true and `nextFile()` reaches
`(current_song + 1) % num_songs` with `num_songs = 0`; the same holds for every state
with an empty catalog and repeat on. Whenever `nextFile()` returns true on a catalog
that is not empty, the resulting `current_song` is below `num_songs`. -/
theorem nextFile_remainder_by_zero :
    sample_boot.num_songs = 0 ∧ sample_boot.repeat_ = true ∧
    nextFileExists sample_boot = true ∧
    nextFile sample_boot = Except.error Fault.division_by_zero ∧
    (∀ s : Song, s.num_songs = 0 → s.repeat_ = true →
      nextFile s = Except.error Fault.division_by_zero) ∧
    (∀ s s1 : Song, 0 < s.num_songs → nextFile s = Except.ok (true, s1) →
      s1.current_song < s.num_songs) := by
  have gen : ∀ s : Song, s.num_songs = 0 → s.repeat_ = true →
      nextFile s = Except.error Fault.division_by_zero := by
    intro s hn hr
    simp [nextFile, nextFileExists, hn, hr]
  refine ⟨rfl, rfl, by decide, gen sample_boot rfl rfl, gen, fun s s1 hn h => ?_⟩
  unfold nextFile at h
  split at h
  · injection h with h; injection h with h _; cases h
  · split at h
    · cases h
    · split at h
      · cases h
      · rename_i s2 hs2
        obtain ⟨p1, _⟩ := sd_file_open_post _ _ hs2
        injection h with h; injection h with _ h
        subst h
        show s2.current_song < s.num_songs
        rw [p1]
        exact lt_of_le_of_lt (Nat.mod_le _ _) (Nat.mod_lt _ hn)

/-! ## The tick -/

/-- C17: `loop()` in DIR_PLAY on a catalog whose count is a byte and whose entries are
terminated names. With `current_song >= num_songs` it changes nothing. Otherwise, on a
track of size 0 the feed divides by zero (the defect of line 198) and no state is
reached; on a track of non-zero size it makes exactly one feed, and (a) after a full
read the state is DIR_PLAY and the track unchanged, (b) after a short read with a next
track the state is DIR_PLAY, the track is `(current_song + 1) % num_songs` and byte
count and position are 0, (c) after a short read without a next track the state is
IDLE and the track unchanged. -/
theorem dir_play_tick (s : Song) (hstate : s.current_state = DIR_PLAY)
    (hbyte : s.num_songs ≤ 256)
    (hcat : ∀ i, i < s.num_songs → entry_terminated s.eeprom i) :
    (s.num_songs ≤ s.current_song → loop s = Except.ok s) ∧
    (s.current_song < s.num_songs → getFileSize s = 0 →
      loop s = Except.error Fault.division_by_zero) ∧
    (s.current_song < s.num_songs → getFileSize s ≠ 0 →
      (¬ (s.sd_file.read read_buffer).1 < read_buffer →
        ∃ s1, loop s = Except.ok s1 ∧ s1.current_state = DIR_PLAY ∧
          s1.current_song = s.current_song ∧
          s1.Mp3_played = s.Mp3_played ++ [(s.sd_file.read read_buffer).1]) ∧
      ((s.sd_file.read read_buffer).1 < read_buffer → nextFileExists s = true →
        ∃ s1, loop s = Except.ok s1 ∧ s1.current_state = DIR_PLAY ∧
          s1.current_song = (s.current_song + 1) % s.num_songs ∧
          s1.bytesPlayed = 0 ∧ s1.currPosition = 0 ∧
          s1.Mp3_played = s.Mp3_played ++ [(s.sd_file.read read_buffer).1]) ∧
      ((s.sd_file.read read_buffer).1 < read_buffer → nextFileExists s = false →
        ∃ s1, loop s = Except.ok s1 ∧ s1.current_state = IDLE ∧
          s1.current_song = s.current_song ∧
          s1.Mp3_played = s.Mp3_played ++ [(s.sd_file.read read_buffer).1])) := by
  have hloop : loop s = dir_play s := by simp [loop, hstate]
  refine ⟨fun hge => ?_, fun hlt hz => ?_, fun hlt hnz => ?_⟩
  · have : ¬ s.current_song < s.num_songs := by omega
    simp [hloop, dir_play, this]
  · exact (feed_divides_by_zero s hz).2.2 hstate hlt
  · obtain ⟨s1, m0, m1, _, m3, m4, m5, m6, _, _, _, m10, m11⟩ := mp3_play_ok s hnz
    have hnfe : nextFileExists s1 = nextFileExists s := by
      simp only [nextFileExists, m3, m4, m6]
    refine ⟨fun hfull => ?_, fun hshort hnext => ?_, fun hshort hnext => ?_⟩
    · obtain ⟨c1, _⟩ := m11 hfull
      have hst : s1.current_state = DIR_PLAY := c1.trans hstate
      refine ⟨s1, ?_, hst, m3, m1⟩
      simp [hloop, dir_play, hlt, m0, hst, DIR_PLAY, IDLE]
    · obtain ⟨c1, _⟩ := m10 hshort
      have hn0 : s.num_songs ≠ 0 := by omega
      have hidx : (s.current_song + 1) % s.num_songs % 256 =
          (s.current_song + 1) % s.num_songs :=
        Nat.mod_eq_of_lt (lt_of_lt_of_le (Nat.mod_lt _ (by omega)) hbyte)
      have hterm : entry_terminated s.eeprom ((s.current_song + 1) % s.num_songs) :=
        hcat _ (Nat.mod_lt _ (by omega))
      obtain ⟨s3, hs3⟩ := sd_file_open_ok
        { (({ s1 with current_state := DIR_PLAY }).emit
            [ Out.kv "message" (Val.str "Next Song") true ]) with
          current_song := (s1.current_song + 1) % s1.num_songs % 256 }
        (by
          show entry_terminated s1.eeprom ((s1.current_song + 1) % s1.num_songs % 256)
          rw [m5, m3, m4, hidx]
          exact hterm)
      obtain ⟨p1, _, _, p4, p5, p6, _, _, _, _, p11⟩ := sd_file_open_post _ _ hs3
      have hnf := nextFile_eq
        (({ s1 with current_state := DIR_PLAY }).emit
          [ Out.kv "message" (Val.str "Next Song") true ]) s3
        (by
          show nextFileExists
            (({ s1 with current_state := DIR_PLAY }).emit
              [ Out.kv "message" (Val.str "Next Song") true ]) = true
          have : nextFileExists
              (({ s1 with current_state := DIR_PLAY }).emit
                [ Out.kv "message" (Val.str "Next Song") true ]) = nextFileExists s1 := rfl
          rw [this, hnfe, hnext])
        (by show s1.num_songs ≠ 0; rw [m4]; exact hn0)
        hs3
      refine ⟨({ s3 with eeprom := EEPROM_write s3.eeprom EEPROM_TRACK s3.current_song }).emit
        [ Out.respond ], ?_, ?_, ?_, p5, p4, ?_⟩
      · have hcond : (s1.current_state == IDLE && nextFileExists s1) = true := by
          rw [c1, hnfe, hnext]; rfl
        simp only [hloop, dir_play, hlt, if_true, m0, hcond, hnf]
      · exact p6
      · show s3.current_song = (s.current_song + 1) % s.num_songs
        rw [p1]
        show (s1.current_song + 1) % s1.num_songs % 256 = _
        rw [m3, m4, hidx]
      · show s3.Mp3_played = _
        rw [p11]
        exact m1
    · obtain ⟨c1, _⟩ := m10 hshort
      refine ⟨s1, ?_, c1, m3, m1⟩
      have hcond : (s1.current_state == IDLE && nextFileExists s1) = false := by
        rw [hnfe, hnext]; simp
      simp only [hloop, dir_play, hlt, if_true, m0, hcond]
      rfl

/-- Witness of C17: the empty track `A.MP3` selected in DIR_PLAY on the sample
catalog. -/
theorem dir_play_tick_witness :
    empty_track_song.current_state = DIR_PLAY ∧ empty_track_song.num_songs ≤ 256 ∧
    (∀ i, i < empty_track_song.num_songs → entry_terminated empty_track_song.eeprom i) ∧
    empty_track_song.current_song < empty_track_song.num_songs ∧
    getFileSize empty_track_song = 0 ∧
    (empty_track_song.sd_file.read read_buffer).1 < read_buffer ∧
    nextFileExists empty_track_song = true ∧
    loop empty_track_song = Except.error Fault.division_by_zero :=
  ⟨by decide, by decide, by decide, by decide, by decide, by decide, by decide,
    (dir_play_tick empty_track_song (by decide) (by decide) (by decide)).2.1
      (by decide) (by decide)⟩

/-- C18: `loop()` in MP3_PLAY on a track of size 0 divides by zero in the feed (line
198), as on the empty track `A.MP3`; on a track of non-zero size it makes exactly one
feed, keeps the track index and the persisted track byte, and leaves
IDLE with the session closed after a short read and MP3_PLAY after a full one.
`loop()` in IDLE returns the state unchanged. -/
theorem single_play_tick (s : Song) :
    (s.current_state = MP3_PLAY → getFileSize s = 0 →
      loop s = Except.error Fault.division_by_zero) ∧
    loop { empty_track_song with current_state := MP3_PLAY } =
      Except.error Fault.division_by_zero ∧
    (s.current_state = MP3_PLAY → getFileSize s ≠ 0 →
      ∃ s1, loop s = Except.ok s1 ∧
        s1.Mp3_played = s.Mp3_played ++ [(s.sd_file.read read_buffer).1] ∧
        s1.current_song = s.current_song ∧
        s1.eeprom EEPROM_TRACK = s.eeprom EEPROM_TRACK ∧
        ((s.sd_file.read read_buffer).1 < read_buffer →
          s1.current_state = IDLE ∧ s1.sd_file.isOpen = false) ∧
        (¬ (s.sd_file.read read_buffer).1 < read_buffer → s1.current_state = MP3_PLAY)) ∧
    (s.current_state = IDLE → loop s = Except.ok s) := by
  refine ⟨fun hs hz => (feed_divides_by_zero s hz).2.1 hs, ?_, fun hs hnz => ?_, fun hs => ?_⟩
  · exact (feed_divides_by_zero _ (by decide)).2.1 rfl
  · obtain ⟨s1, m0, m1, _, m3, _, m5, _, _, _, _, m10, m11⟩ := mp3_play_ok s hnz
    have hloop : loop s = mp3_play s := by simp [loop, hs, MP3_PLAY, DIR_PLAY]
    refine ⟨s1, hloop.trans m0, m1, m3, by rw [m5], fun hshort => ?_, fun hfull => ?_⟩
    · obtain ⟨c1, c2⟩ := m10 hshort
      exact ⟨c1, by rw [c2]; rfl⟩
    · exact (m11 hfull).1.trans hs
  · simp [loop, hs, IDLE, DIR_PLAY, MP3_PLAY]

end SongPlayer
